import Mathlib

/-!
Verification of the glsim simulator core (genlayer-testing-suite).

This file shallowly embeds the parts of the simulator that the checked
properties are about:

* `glsim/state.py`   — the in-memory `StateStore` (accounts, contracts,
  transactions, block counter, sequential transaction ids, contract address
  generation).
* `glsim/engine.py`  — the `SimEngine` snapshot/restore machinery, the
  post-message queue drain in `call_method`, and the cross-contract
  call/deploy hook handlers.
* `glsim/consensus.py` — `run_consensus`, `_run_validators`,
  `_snapshot_storages`, `_restore_storages`.
* `gltest/direct/wasi_mock.py` and `gltest/direct/loader.py` — the host
  request dispatch (`_handle_gl_call`, `_handle_run_nondet`) and the
  direct-mode `run_nondet` patch.

Python dicts are modelled as insertion-ordered association lists; machine
integers are `Nat`; byte strings are `List Nat`; fallible code returns
`Except`.  `copy.deepcopy` is value copying, which is the identity in a
value-semantics embedding.  Contract code and library closures that the
engine merely invokes are parameters of the embedded operations.
-/

namespace GLSim

/-! ## Association maps (Python dict model) -/

/-- Insertion-ordered association list standing for a Python dict. -/
abbrev AMap (K V : Type) := List (K × V)

/-- Dict lookup: first entry whose key matches. -/
def lookupA {K V : Type} [DecidableEq K] : AMap K V → K → Option V
  | [], _ => none
  | (k, v) :: rest, key => if k = key then some v else lookupA rest key

/-- Dict assignment: replace in place if the key exists, else append
(Python dicts preserve insertion order). -/
def insertA {K V : Type} [DecidableEq K] : AMap K V → K → V → AMap K V
  | [], key, val => [(key, val)]
  | (k, v) :: rest, key, val =>
    if k = key then (key, val) :: rest else (k, v) :: insertA rest key val

/-- The key set of a dict, in insertion order. -/
def keysOf {K V : Type} (m : AMap K V) : List K := m.map Prod.fst

/-- Keep only the entries whose key belongs to `ks`, preserving order.  This
is the `for k in list(m.keys()): if k not in ks: del m[k]` idiom used by
`SimEngine.restore_snapshot` and `consensus._restore_storages`. -/
def pruneKeys {K V : Type} [DecidableEq K] (ks : List K) (m : AMap K V) : AMap K V :=
  m.filter (fun p => decide (p.1 ∈ ks))

/-- The map `new` extends `old`: it keeps every entry of `old` untouched and
only appends entries at fresh keys.  This is how contract execution grows the
instance / class / contract maps: `deploy` only ever assigns at a freshly
generated address. -/
def MapExtends {K V : Type} [DecidableEq K] (old new : AMap K V) : Prop :=
  ∃ added, new = old ++ added ∧ ∀ p ∈ added, lookupA old p.1 = none

/-! ## Bytes and storage partitions (`InmemManager`, `gltest/direct/vm.py`) -/

/-- Byte strings as lists of naturals (each `< 256` where it matters). -/
abbrev Bytes := List Nat

/-- Zero padding used when a write reaches past the high-water mark. -/
def zeroBytes (n : Nat) : Bytes := List.replicate n 0

/-- Extend `mem` with zero bytes up to `needed` (no-op when long enough). -/
def extendTo (mem : Bytes) (needed : Nat) : Bytes :=
  if mem.length < needed then mem ++ zeroBytes (needed - mem.length) else mem

/-- Overwrite the region `[off, off+what.length)` of `mem` after
zero-extension, as `InmemManager.do_write` does on its bytearray. -/
def writeRegion (mem : Bytes) (off : Nat) (what : Bytes) : Bytes :=
  let mem2 := extendTo mem (off + what.length)
  mem2.take off ++ what ++ mem2.drop (off + what.length)

/-- One per-contract storage partition: slot-id bytes to slot contents,
mirroring `InmemManager._parts` (the `Slot` wrapper objects carry no state
beyond the id). -/
structure Storage where
  parts : AMap Bytes Bytes
deriving DecidableEq, Repr

/-- Model of `InmemManager.do_write`: create the slot if missing, zero-extend,
overwrite the region. -/
def doWrite (s : Storage) (slot : Bytes) (off : Nat) (what : Bytes) : Storage :=
  let mem := (lookupA s.parts slot).getD []
  { parts := insertA s.parts slot (writeRegion mem off what) }

/-! ## StateStore data (`glsim/state.py`) -/

/-- Transaction status enum `TxStatus`. -/
inductive TxStatus where
  | PENDING
  | ACCEPTED
  | FINALIZED
  | UNDETERMINED
  | FAILED
deriving DecidableEq, Repr

/-- Account record (`state.py` `Account`). -/
structure Account where
  address : String
  balance : Int
  nonce : Nat
deriving DecidableEq, Repr

/-- Deployed contract record (`state.py` `DeployedContract`); the live
instance handle and schema are opaque to the properties checked here. -/
structure ContractRec where
  address : String
  codePath : String
  payload : Nat
deriving DecidableEq, Repr

/-- Transaction record (`state.py` `Transaction`), restricted to the fields
the checked properties mention. -/
structure Tx where
  hash : String
  fromAddress : String
  toAddress : Option String
  status : TxStatus
  txType : String
  blockNumber : Nat
  glTxId : Nat
  ethTxHash : String
  errorMsg : Option String
  numValidators : Nat
  consensusRotation : Nat
deriving DecidableEq, Repr

/-- Engine + state-store snapshot payload (`SimEngine.create_snapshot`).
The accounts map is deep-copied; `state_contracts` stores `{k: v.address}`
and is only ever used for key membership, so its key list is kept; the
transaction map copy is value-faithful because no state-store operation
mutates a transaction record that already existed when the snapshot was
taken; the instance / storage / class maps are captured as key sets only. -/
structure Snap where
  accounts : AMap String Account
  contractsKeys : List String
  transactions : AMap String Tx
  blockNumber : Nat
  nextGlTxId : Nat
  glToHash : AMap Nat String
  ethHashToHash : AMap String String
  instancesKeys : List String
  storagesKeys : List String
  classesKeys : List String
deriving DecidableEq, Repr

/-- Combined `StateStore` + `SimEngine` state, restricted to the fields the
checked properties are about.  `vmStorage` is the partition currently
installed on the runtime (`engine.vm._storage`), as a value. -/
structure SimState where
  accounts : AMap String Account
  contracts : AMap String ContractRec
  transactions : AMap String Tx
  blockNumber : Nat
  nextGlTxId : Nat
  glToHash : AMap Nat String
  ethHashToHash : AMap String String
  instances : AMap String Nat
  classes : AMap String Nat
  storages : AMap String Storage
  vmStorage : Storage
  snapshots : AMap Nat Snap
  snapshotCounter : Nat
deriving DecidableEq, Repr

/-- Snapshot-key sanity invariant: every stored snapshot id is at most
the counter.  `create_snapshot` establishes it for every id it hands out
and nothing ever rewinds `_snapshot_counter`. -/
abbrev SnapInv (s : SimState) : Prop :=
  ∀ k ∈ keysOf s.snapshots, k ≤ s.snapshotCounter

/-! ## Snapshot and restore (`SimEngine.create_snapshot` / `restore_snapshot`) -/

/-- The snapshot payload captured from a state (the dict literal built by
`SimEngine.create_snapshot`). -/
def mkSnap (s : SimState) : Snap :=
  { accounts := s.accounts
    contractsKeys := keysOf s.contracts
    transactions := s.transactions
    blockNumber := s.blockNumber
    nextGlTxId := s.nextGlTxId
    glToHash := s.glToHash
    ethHashToHash := s.ethHashToHash
    instancesKeys := keysOf s.instances
    storagesKeys := keysOf s.storages
    classesKeys := keysOf s.classes }

/-- Model of `SimEngine.create_snapshot`.  Returns the new state and the
snapshot id. -/
def createSnapshot (s : SimState) : SimState × Nat :=
  let sid := s.snapshotCounter + 1
  ({ s with snapshotCounter := sid, snapshots := insertA s.snapshots sid (mkSnap s) }, sid)

/-- Model of `SimEngine.restore_snapshot`.  A missing id returns `false` and
changes nothing.  Otherwise the accounts, transactions, counters and hash
indexes are restored from the snapshot, while the instance / storage / class /
contract maps are only pruned to the snapshot-time key sets (their surviving
entries keep their current values).  The snapshot map itself is not touched. -/
def restoreSnapshot (sid : Nat) (s : SimState) : SimState × Bool :=
  match lookupA s.snapshots sid with
  | none => (s, false)
  | some snap =>
    ({ s with
        accounts := snap.accounts
        blockNumber := snap.blockNumber
        nextGlTxId := snap.nextGlTxId
        glToHash := snap.glToHash
        ethHashToHash := snap.ethHashToHash
        transactions := snap.transactions
        instances := pruneKeys snap.instancesKeys s.instances
        storages := pruneKeys snap.storagesKeys s.storages
        classes := pruneKeys snap.classesKeys s.classes
        contracts := pruneKeys snap.contractsKeys s.contracts }, true)

/-! ## SHA-256 (`hashlib.sha256`, used by `StateStore.generate_contract_address`) -/

/-- The modulus for 32-bit words. -/
def M32 : Nat := 4294967296

/-- Right rotation of a 32-bit word. -/
def rotr32 (x n : Nat) : Nat :=
  ((x >>> n) ||| (x <<< (32 - n))) % M32

/-- SHA-256 big sigma 0. -/
def bSig0 (x : Nat) : Nat := rotr32 x 2 ^^^ rotr32 x 13 ^^^ rotr32 x 22

/-- SHA-256 big sigma 1. -/
def bSig1 (x : Nat) : Nat := rotr32 x 6 ^^^ rotr32 x 11 ^^^ rotr32 x 25

/-- SHA-256 small sigma 0. -/
def sSig0 (x : Nat) : Nat := rotr32 x 7 ^^^ rotr32 x 18 ^^^ (x >>> 3)

/-- SHA-256 small sigma 1. -/
def sSig1 (x : Nat) : Nat := rotr32 x 17 ^^^ rotr32 x 19 ^^^ (x >>> 10)

/-- SHA-256 choose function (bitwise not via xor with the 32-bit mask). -/
def shaCh (x y z : Nat) : Nat := (x &&& y) ^^^ ((x ^^^ 4294967295) &&& z)

/-- SHA-256 majority function. -/
def shaMaj (x y z : Nat) : Nat := (x &&& y) ^^^ (x &&& z) ^^^ (y &&& z)

/-- SHA-256 round constants (decimal). -/
def shaK : List Nat :=
  [1116352408, 1899447441, 3049323471, 3921009573, 961987163, 1508970993,
   2453635748, 2870763221, 3624381080, 310598401, 607225278, 1426881987,
   1925078388, 2162078206, 2614888103, 3248222580, 3835390401, 4022224774,
   264347078, 604807628, 770255983, 1249150122, 1555081692, 1996064986,
   2554220882, 2821834349, 2952996808, 3210313671, 3336571891, 3584528711,
   113926993, 338241895, 666307205, 773529912, 1294757372, 1396182291,
   1695183700, 1986661051, 2177026350, 2456956037, 2730485921, 2820302411,
   3259730800, 3345764771, 3516065817, 3600352804, 4094571909, 275423344,
   430227734, 506948616, 659060556, 883997877, 958139571, 1322822218,
   1537002063, 1747873779, 1955562222, 2024104815, 2227730452, 2361852424,
   2428436474, 2756734187, 3204031479, 3329325298]

/-- Working state of the compression function (eight 32-bit words). -/
structure Hash8 where
  w0 : Nat
  w1 : Nat
  w2 : Nat
  w3 : Nat
  w4 : Nat
  w5 : Nat
  w6 : Nat
  w7 : Nat
deriving DecidableEq, Repr

/-- SHA-256 initial hash value (decimal). -/
def shaInit : Hash8 :=
  ⟨1779033703, 3144134277, 1013904242, 2773480762,
   1359893119, 2600822924, 528734635, 1541459225⟩

/-- One compression round with round constant and schedule word `kw`. -/
def compressStep (st : Hash8) (kw : Nat × Nat) : Hash8 :=
  let t1 := (st.w7 + bSig1 st.w4 + shaCh st.w4 st.w5 st.w6 + kw.1 + kw.2) % M32
  let t2 := (bSig0 st.w0 + shaMaj st.w0 st.w1 st.w2) % M32
  ⟨(t1 + t2) % M32, st.w0, st.w1, st.w2, (st.w3 + t1) % M32, st.w4, st.w5, st.w6⟩

/-- Extend the message schedule by one word. -/
def scheduleStep (acc : List Nat) : List Nat :=
  let n := acc.length
  let g := fun (i : Nat) => acc.getD (n - i) 0
  acc ++ [(sSig1 (g 2) + g 7 + sSig0 (g 15) + g 16) % M32]

/-- Iterate `scheduleStep`. -/
def buildSchedule : Nat → List Nat → List Nat
  | 0, acc => acc
  | k + 1, acc => buildSchedule k (scheduleStep acc)

/-- Four bytes, big-endian, to one 32-bit word. -/
def bytesToWords : Bytes → List Nat
  | a :: b :: c :: d :: rest => (((a * 256 + b) * 256 + c) * 256 + d) :: bytesToWords rest
  | _ => []

/-- One 32-bit word to four big-endian bytes. -/
def word32ToBytesBE (w : Nat) : Bytes :=
  [(w >>> 24) % 256, (w >>> 16) % 256, (w >>> 8) % 256, w % 256]

/-- Compress one 64-byte block into the running hash. -/
def compressBlock (H : Hash8) (block : Bytes) : Hash8 :=
  let ws := buildSchedule 48 (bytesToWords block)
  let f := (shaK.zip ws).foldl compressStep H
  ⟨(H.w0 + f.w0) % M32, (H.w1 + f.w1) % M32, (H.w2 + f.w2) % M32, (H.w3 + f.w3) % M32,
   (H.w4 + f.w4) % M32, (H.w5 + f.w5) % M32, (H.w6 + f.w6) % M32, (H.w7 + f.w7) % M32⟩

/-- A natural to `len` big-endian bytes. -/
def natToBytesBE : Nat → Nat → Bytes
  | _, 0 => []
  | n, k + 1 => natToBytesBE (n >>> 8) k ++ [n % 256]

/-- SHA-256 message padding: `0x80`, zeros to 56 mod 64, 8-byte bit length. -/
def padMessage (msg : Bytes) : Bytes :=
  let L := msg.length
  let z := (119 - L % 64) % 64
  msg ++ [0x80] ++ zeroBytes z ++ natToBytesBE (8 * L) 8

/-- Split into 64-byte chunks (fuel-driven; the fuel is always sufficient). -/
def chunk64Go : Nat → Bytes → List Bytes
  | 0, _ => []
  | _, [] => []
  | fuel + 1, bs => bs.take 64 :: chunk64Go fuel (bs.drop 64)

/-- Split a padded message into its 64-byte blocks. -/
def chunk64 (bs : Bytes) : List Bytes := chunk64Go (bs.length + 1) bs

/-- SHA-256 of a byte string, as 32 digest bytes. -/
def sha256 (msg : Bytes) : Bytes :=
  let f := (chunk64 (padMessage msg)).foldl compressBlock shaInit
  word32ToBytesBE f.w0 ++ word32ToBytesBE f.w1 ++ word32ToBytesBE f.w2 ++ word32ToBytesBE f.w3 ++
  word32ToBytesBE f.w4 ++ word32ToBytesBE f.w5 ++ word32ToBytesBE f.w6 ++ word32ToBytesBE f.w7

/-- Lowercase hex digit for a value below 16. -/
def hexDigitChar (n : Nat) : Char :=
  if n < 10 then Char.ofNat (48 + n) else Char.ofNat (87 + n)

/-- Two lowercase hex characters for one byte. -/
def byteToHexChars (b : Nat) : List Char := [hexDigitChar (b / 16), hexDigitChar (b % 16)]

/-- Lowercase hex rendering of a byte string (`hexdigest`). -/
def bytesToHexChars (bs : Bytes) : List Char := (bs.map byteToHexChars).flatten

/-- UTF-8 encoding of one Unicode code point. -/
def utf8Encode (c : Nat) : List Nat :=
  if c < 128 then [c]
  else if c < 2048 then [192 ||| (c >>> 6), 128 ||| (c &&& 63)]
  else if c < 65536 then [224 ||| (c >>> 12), 128 ||| ((c >>> 6) &&& 63), 128 ||| (c &&& 63)]
  else [240 ||| (c >>> 18), 128 ||| ((c >>> 12) &&& 63), 128 ||| ((c >>> 6) &&& 63), 128 ||| (c &&& 63)]

/-- UTF-8 bytes of a string (Python `str.encode`). -/
def strBytes (s : String) : Bytes := (s.toList.map (fun c => utf8Encode c.toNat)).flatten

/-- Model of `StateStore.generate_contract_address`: the first 40 characters
of the SHA-256 hexdigest of `deployer ++ ":" ++ str(nonce)`, with a `0x`
prefix (`state.py` line 122). -/
def generateContractAddress (deployer : String) (nonce : Nat) : String :=
  String.mk ('0' :: 'x' ::
    (bytesToHexChars (sha256 (strBytes (deployer ++ ":" ++ toString nonce)))).take 40)

/-- Modelled from the spec: the spec words say the address is the LOW 20
bytes of the SHA-256 digest, i.e. the least-significant (trailing) 20 bytes
of the 32-byte digest, rendered as 0x-prefixed hex.  This definition follows
the spec wording, to be compared with `generateContractAddress` from the
source. -/
def generateContractAddressSpecLow (deployer : String) (nonce : Nat) : String :=
  String.mk ('0' :: 'x' ::
    bytesToHexChars ((sha256 (strBytes (deployer ++ ":" ++ toString nonce))).drop 12))

/-! ## Consensus (`glsim/consensus.py`) -/

/-- Sub-VM outcome handed to a validator closure (`genlayer.gl.vm.Return` /
`UserError`); `run_consensus` always passes a success `Return` wrapping the
leader's captured result. -/
inductive VmOutcome where
  | ret (calldata : Nat)
  | userError (msg : String)

/-- One captured validator witness, the `(stored_result, leader_fn,
validator_fn)` triple appended by a non-deterministic operation.  The leader
closure is never invoked by `_run_validators`, so it is opaque here.  The
validator closure may throw (`Except.error`) or return a boolean. -/
structure Witness where
  storedResult : Nat
  leaderFn : Nat
  validatorFn : VmOutcome → Except Unit Bool

/-- The inner loop of `_run_validators` for one validator: walk the captured
witnesses, break to `disagree` on the first closure that throws or returns
false. -/
def validatorAgrees : List Witness → Bool
  | [] => true
  | w :: rest =>
    match w.validatorFn (VmOutcome.ret w.storedResult) with
    | Except.ok true => validatorAgrees rest
    | _ => false

/-- Model of `_run_validators`: each of the `n` validators runs the same
(deterministic) check over the captured witnesses. -/
def runValidators (captured : List Witness) (n : Nat) : List String :=
  (List.range n).map (fun _ => if validatorAgrees captured then "agree" else "disagree")

/-- The vote computation of `run_consensus` (consensus.py lines 67-74). -/
def computeVotes (captured : List Witness) (n : Nat) : List String :=
  if n ≤ 1 then ["agree"]
  else if captured.isEmpty then List.replicate n "agree"
  else runValidators captured n

/-- Result record returned by `run_consensus` (`ConsensusResult`). -/
structure ConsensusResult where
  status : TxStatus
  result : Option Nat
  error : Option String
  resultBytes : Bytes
  votes : List String
  rotation : Nat

/-- Rotation rollback data captured by `consensus._snapshot_storages`:
deep copies of the storage-partition map and the current partition, plus the
key sets of the instance and class maps. -/
structure StorSnap where
  storages : AMap String Storage
  vmStorage : Storage
  instancesKeys : List String
  classesKeys : List String

/-- Model of `consensus._snapshot_storages`. -/
def snapshotStorages (s : SimState) : StorSnap :=
  { storages := s.storages
    vmStorage := s.vmStorage
    instancesKeys := keysOf s.instances
    classesKeys := keysOf s.classes }

/-- Model of `consensus._restore_storages`: restore the state-store snapshot,
overwrite the storage-partition map and the current partition with the deep
copies, and prune instances/classes back to the captured key sets. -/
def restoreStorages (s : SimState) (snap : StorSnap) (sid : Nat) : SimState :=
  let s1 := (restoreSnapshot sid s).1
  { s1 with
      storages := snap.storages
      vmStorage := snap.vmStorage
      instances := pruneKeys snap.instancesKeys s1.instances
      classes := pruneKeys snap.classesKeys s1.classes }

/-- Outcome of one leader execution (`execute_fn`): the post-execution
engine state, the witness list it left in `vm._captured_validators` (which
`run_consensus` clears before executing and copies after), and either a
`(result, result_bytes)` pair or the raised error's message. -/
structure ExecOut where
  st : SimState
  captured : List Witness
  res : Except String (Nat × Bytes)

/-- Loop-carried values of the last attempt (Python locals `result`,
`error`, `result_bytes`, `votes` that survive the `for` loop). -/
structure Attempt where
  result : Option Nat
  error : Option String
  resultBytes : Bytes
  votes : List String

/-- Python `error or "No consensus after max rotations"` (an empty string is
falsy). -/
def errorOrDefault (e : Option String) : String :=
  match e with
  | none => "No consensus after max rotations"
  | some s => if s = "" then "No consensus after max rotations" else s

/-- The rotation loop of `run_consensus`.  `r` counts the remaining
rotations, `idx` is the current rotation index. -/
def consensusGo (execute : SimState → ExecOut) (numValidators maxR : Nat) :
    Nat → Nat → SimState → Attempt → SimState × ConsensusResult
  | 0, _, s, last =>
    (s, { status := TxStatus.UNDETERMINED, result := last.result,
          error := some (errorOrDefault last.error), resultBytes := last.resultBytes,
          votes := last.votes, rotation := maxR - 1 })
  | r + 1, idx, s, _ =>
    let cs := createSnapshot s
    let storSnap := snapshotStorages cs.1
    let eo := execute cs.1
    let rres : Option Nat := match eo.res with | Except.ok p => some p.1 | Except.error _ => none
    let rbytes : Bytes := match eo.res with | Except.ok p => p.2 | Except.error _ => []
    let rerr : Option String := match eo.res with | Except.ok _ => none | Except.error e => some e
    let votes := computeVotes eo.captured numValidators
    if numValidators / 2 + 1 ≤ votes.count "agree" then
      (eo.st, { status := TxStatus.FINALIZED, result := rres, error := rerr,
                resultBytes := rbytes, votes := votes, rotation := idx })
    else
      consensusGo execute numValidators maxR r (idx + 1) (restoreStorages eo.st storSnap cs.2)
        { result := rres, error := rerr, resultBytes := rbytes, votes := votes }

/-- Model of `run_consensus`: clamp the rotation cap to at least 1, then run
the rotation loop. -/
def runConsensus (execute : SimState → ExecOut) (numValidators maxRotations : Nat)
    (s : SimState) : SimState × ConsensusResult :=
  let maxR := if maxRotations < 1 then 1 else maxRotations
  consensusGo execute numValidators maxR maxR 0 s
    { result := none, error := none, resultBytes := [], votes := [] }

/-- The components of the state that claim C1 requires to be bit-identical
on an UNDETERMINED outcome: the storage-partition map, the instance map, the
contracts map, the block counter and the sequential-id counter. -/
def CoreEq (a b : SimState) : Prop :=
  a.storages = b.storages ∧ a.instances = b.instances ∧ a.contracts = b.contracts ∧
  a.blockNumber = b.blockNumber ∧ a.nextGlTxId = b.nextGlTxId

/-- What leader execution (`engine.deploy_from_code` / `call_from_calldata`)
actually does to the engine maps: it only appends fresh entries to the
instance and contract maps (every deploy assigns at a freshly generated
address) and never touches the engine's snapshot store. -/
def ExecWellBehaved (execute : SimState → ExecOut) : Prop :=
  ∀ s, MapExtends s.instances (execute s).st.instances ∧
       MapExtends s.contracts (execute s).st.contracts ∧
       (execute s).st.snapshots = s.snapshots ∧
       (execute s).st.snapshotCounter = s.snapshotCounter

/-- An empty simulator state as built by `StateStore.__init__` and
`SimEngine.__init__` (block 0, next sequential id 1). -/
def emptyState : SimState :=
  { accounts := []
    contracts := []
    transactions := []
    blockNumber := 0
    nextGlTxId := 1
    glToHash := []
    ethHashToHash := []
    instances := []
    classes := []
    storages := []
    vmStorage := { parts := [] }
    snapshots := []
    snapshotCounter := 0 }

/-- State with two snapshots (ids 1 and 2), used to exercise
`restore_snapshot` on nested snapshots. -/
def twoSnapState : SimState := (createSnapshot (createSnapshot emptyState).1).1

/-! ## Engine and state-store mutations (for the snapshot round-trip law)

The operations below are the state mutations reachable through the
`SimEngine` / `StateStore` surface between a `create_snapshot` and a
`restore_snapshot`: the `StateStore` methods themselves, the map additions a
deploy performs, the storage writes contract methods perform through the host
interface (`storage_write` → `InmemManager.do_write` on the partition
installed for the executing contract), and further snapshot / restore calls.
No reachable operation mutates a transaction record that already existed
when a snapshot was taken (each RPC handler only mutates the transaction it
itself created), so the snapshot's `dict(...)` copy of the transaction map
is modelled as a value copy. -/

/-- Python `str.lower()` for the ASCII addresses the simulator handles. -/
def pyLower (s : String) : String := String.mk (s.toList.map Char.toLower)

inductive EngineOp where
  | fundAccount (addr : String) (amount : Int)
  | incrementNonce (addr : String)
  | nextBlock
  | allocateGlTxId
  | addTransaction (tx : Tx)
  | registerContract (addr codePath : String) (payload : Nat)
  | deployEffect (addr : String) (inst cls : Nat)
  | contractWrite (addr : String) (slot : Bytes) (off : Nat) (what : Bytes)
  | snapshotOp
  | restoreOp (sid : Nat)

/-- Apply one engine / state-store operation. -/
def applyOp (s : SimState) : EngineOp → SimState
  | EngineOp.fundAccount addr amt =>
    let k := pyLower addr
    match lookupA s.accounts k with
    | none => { s with accounts := insertA s.accounts k { address := k, balance := amt, nonce := 0 } }
    | some a => { s with accounts := insertA s.accounts k { a with balance := a.balance + amt } }
  | EngineOp.incrementNonce addr =>
    let k := pyLower addr
    match lookupA s.accounts k with
    | none => { s with accounts := insertA s.accounts k { address := k, balance := 0, nonce := 1 } }
    | some a => { s with accounts := insertA s.accounts k { a with nonce := a.nonce + 1 } }
  | EngineOp.nextBlock => { s with blockNumber := s.blockNumber + 1 }
  | EngineOp.allocateGlTxId => { s with nextGlTxId := s.nextGlTxId + 1 }
  | EngineOp.addTransaction tx => { s with transactions := insertA s.transactions tx.hash tx }
  | EngineOp.registerContract addr path payload =>
    { s with contracts := insertA s.contracts (pyLower addr) ⟨pyLower addr, path, payload⟩ }
  | EngineOp.deployEffect addr inst cls =>
    let k := pyLower addr
    { s with
        instances := insertA s.instances k inst
        classes := insertA s.classes k cls
        storages := insertA s.storages k { parts := [] }
        vmStorage := { parts := [] } }
  | EngineOp.contractWrite addr slot off what =>
    match lookupA s.storages addr with
    | none => s
    | some st => { s with storages := insertA s.storages addr (doWrite st slot off what) }
  | EngineOp.snapshotOp => (createSnapshot s).1
  | EngineOp.restoreOp sid => (restoreSnapshot sid s).1

/-- Apply a sequence of operations. -/
def applyOps (s : SimState) (ops : List EngineOp) : SimState := ops.foldl applyOp s

/-- A deployed contract at address 0xaa with an empty storage partition. -/
def oneContractState : SimState := applyOp emptyState (EngineOp.deployEffect "0xaa" 1 1)

/-- Mutation of the 0xaa partition performed after a snapshot of
`oneContractState`: a storage write through the host interface. -/
def oneContractMutated : SimState :=
  applyOps (createSnapshot oneContractState).1 [EngineOp.contractWrite "0xaa" [0] 0 [42]]

/-! ## Host request dispatch (`gltest/direct/wasi_mock.py`)

The `gl_call` dispatch `_handle_gl_call` is the only path by which running
contract code reaches the host.  The state it can touch lives on the
`VMContext`; the fields below are exactly the ones its handlers write.
`vm._captured_validators` is declared on the context (vm.py line 190) and,
apart from snapshot restore, is only ever cleared or copied — no handler
appends to it.  The direct-mode `gl.vm.run_nondet` patch
(`loader._patch_run_nondet_for_direct_mode`) simply calls the leader closure;
the WASI-mock `_handle_run_nondet` unpickles and runs the leader closure and
returns its encoded result without recording any witness. -/

/-- One registered web mock response (`MockedWebResponseData`); the payload
past the method filter is opaque here. -/
structure WebMockData where
  method : String
  payload : Nat

/-- Responses returned by `_handle_gl_call` (the `None` case makes `gl_call`
report failure with fd `2^32-1`). -/
inductive GlResponse where
  | noResponse
  | okNone
  | okWeb (d : WebMockData)
  | okLlm (s : String)
  | raw (bs : Bytes)

/-- The `RunNondet` request payload: the unpickled leader closure (`none`
when `data_leader` is falsy). -/
structure NondetData where
  dataLeader : Option (Unit → Except String Nat)

/-- Host requests dispatched by `_handle_gl_call`.  Regex patterns of the
mock tables are modelled as predicates on the url / prompt. -/
inductive GlRequest where
  | retReq (v : Nat)
  | rollback (msg : String)
  | traceReq (msg : String)
  | sandbox
  | runNondet (d : NondetData)
  | webRequest (url meth : String)
  | execPrompt (prompt : String)
  | unknownReq

/-- The VMContext fields touched by `_handle_gl_call` handlers. -/
structure VmHost where
  captured : List Witness
  returnValue : Option Nat
  returned : Bool
  traceEnabled : Bool
  traces : List String
  webMocks : List ((String → Bool) × WebMockData)
  llmMocks : List ((String → Bool) × String)
  webMocksHit : List Nat
  llmMocksHit : List Nat

/-- Model of `VMContext._trace`: append only when tracing is enabled. -/
def vmTrace (vm : VmHost) (msg : String) : VmHost :=
  if vm.traceEnabled then { vm with traces := vm.traces ++ [msg] } else vm

/-- Model of `VMContext._match_web_mock`: first pattern matching the url
whose mock declares the request method wins; its index is recorded in the
hit set. -/
def matchWebMockGo (vm : VmHost) (url meth : String) :
    Nat → List ((String → Bool) × WebMockData) → VmHost × Option WebMockData
  | _, [] => (vm, none)
  | i, (pat, resp) :: rest =>
    if pat url then
      if resp.method = meth then
        ({ vm with webMocksHit := vm.webMocksHit ++ [i] }, some resp)
      else matchWebMockGo vm url meth (i + 1) rest
    else matchWebMockGo vm url meth (i + 1) rest

/-- Model of `VMContext._match_llm_mock`. -/
def matchLlmMockGo (vm : VmHost) (prompt : String) :
    Nat → List ((String → Bool) × String) → VmHost × Option String
  | _, [] => (vm, none)
  | i, (pat, resp) :: rest =>
    if pat prompt then ({ vm with llmMocksHit := vm.llmMocksHit ++ [i] }, some resp)
    else matchLlmMockGo vm prompt (i + 1) rest

/-- Model of `_handle_run_nondet`: run the leader closure directly; wrap its
result with the Return code 0, or its error text with the UserError code 1.
No witness is recorded. -/
def handleRunNondet (encode : Nat → Bytes) (vm : VmHost) (d : NondetData) :
    VmHost × Except String GlResponse :=
  match d.dataLeader with
  | none => (vm, Except.error "RunNondet missing data_leader")
  | some leaderFn =>
    match leaderFn () with
    | Except.ok r => (vm, Except.ok (GlResponse.raw (0 :: encode r)))
    | Except.error e => (vm, Except.ok (GlResponse.raw (1 :: strBytes e)))

/-- Model of `_handle_gl_call`: dispatch one host request.  `Except.error`
stands for a raised Python exception (`ContractRollback`,
`MockNotFoundError`, `ValueError`). -/
def handleGlCall (encode : Nat → Bytes) (vm : VmHost) :
    GlRequest → VmHost × Except String GlResponse
  | GlRequest.retReq v => ({ vm with returnValue := some v, returned := true },
      Except.ok GlResponse.noResponse)
  | GlRequest.rollback msg => (vm, Except.error msg)
  | GlRequest.traceReq msg => (vmTrace vm msg, Except.ok GlResponse.okNone)
  | GlRequest.sandbox => (vm, Except.ok GlResponse.okNone)
  | GlRequest.runNondet d => handleRunNondet encode vm d
  | GlRequest.webRequest url meth =>
    match matchWebMockGo vm url meth 0 vm.webMocks with
    | (vm2, some resp) => (vm2, Except.ok (GlResponse.okWeb resp))
    | (vm2, none) => (vm2, Except.error ("No web mock for " ++ meth ++ " " ++ url))
  | GlRequest.execPrompt prompt =>
    match matchLlmMockGo vm prompt 0 vm.llmMocks with
    | (vm2, some resp) => (vm2, Except.ok (GlResponse.okLlm resp))
    | (vm2, none) => (vm2, Except.error ("No LLM mock for prompt: " ++ prompt))
  | GlRequest.unknownReq => (vmTrace vm "Unknown gl_call request type",
      Except.ok GlResponse.noResponse)

/-- Run a contract execution, seen as the sequence of host requests it
issues; a raised exception aborts the run (it propagates out of the
contract). -/
def runRequests (encode : Nat → Bytes) : VmHost → List GlRequest → VmHost × Option String
  | vm, [] => (vm, none)
  | vm, r :: rest =>
    match handleGlCall encode vm r with
    | (vm2, Except.ok _) => runRequests encode vm2 rest
    | (vm2, Except.error e) => (vm2, some e)

/-- The clearing of `vm._captured_validators` done by `run_consensus` at the
start of every attempt. -/
def clearCaptured (vm : VmHost) : VmHost := { vm with captured := [] }

/-- Whether the vote computation of `run_consensus` would enter the
per-witness `_run_validators` branch. -/
def validatorBranchTaken (captured : List Witness) (n : Nat) : Bool :=
  !(decide (n ≤ 1)) && !captured.isEmpty

/-! ## The post-message queue drain (`SimEngine.call_method`) -/

/-- One queued PostMessage (`engine._post_queue` entry). -/
structure PostMsg where
  address : String
  method : String
  args : List Nat
  sender : String
deriving DecidableEq, Repr

/-- The state a contract method body can reach while running inside
`call_method`: the storage partitions (through the host interface) and the
post-message queue / trace log (through the `gl_call` hook). -/
structure BodyState where
  storages : AMap String Storage
  postQueue : List PostMsg
  traces : List String
deriving Repr

/-- Engine state around `call_method`: the body-reachable state plus the
call-depth counter, the drain flag, the trace switch, and a log of the
method invocations performed (observable execution order; the Python code
has no such field, it is the embedding's notion of "the method was
executed"). -/
structure CallState where
  storages : AMap String Storage
  postQueue : List PostMsg
  traces : List String
  traceEnabled : Bool
  callDepth : Nat
  draining : Bool
  execLog : List (String × String)
deriving Repr

/-- View of the engine state a method body operates on. -/
def toBody (st : CallState) : BodyState :=
  { storages := st.storages, postQueue := st.postQueue, traces := st.traces }

/-- Merge the body's effects back into the engine state. -/
def fromBody (st : CallState) (b : BodyState) : CallState :=
  { st with storages := b.storages, postQueue := b.postQueue, traces := b.traces }

/-- Model of `VMContext._trace` at the engine-call level. -/
def callTrace (st : CallState) (msg : String) : CallState :=
  if st.traceEnabled then { st with traces := st.traces ++ [msg] } else st

/-- The deployed methods: address and method name to the method body
(`engine._instances` plus `getattr`).  A body returns a result or raises. -/
abbrev MethodTable := String → String → Option (BodyState → BodyState × Except String Nat)

/-- The engine state right after a method body returns inside `call_method`:
body effects merged, the invocation logged, and the call depth back at its
entry value (the code increments it around the invocation and decrements it
in the `finally`; the body cannot observe it, so the net effect is captured
directly). -/
def afterOuterCall (st : CallState) (addr mname : String) (b2 : BodyState) : CallState :=
  { fromBody { st with execLog := st.execLog ++ [(addr, mname)] } b2
    with callDepth := st.callDepth }

/-- The state handed to the drained call: queue cleared, drain flag set
(`msg = pop(0); clear(); draining = True`). -/
def drainState (st : CallState) : CallState := { st with postQueue := [], draining := true }

/-- Model of `SimEngine.call_method` (engine.py lines 217-280).  The fuel
bounds the drain recursion; fuel 2 suffices for any top-level call because a
drained call runs with the drain flag set and therefore never drains again.
On a method exception the drain block is skipped (the Python `if` after the
`try/finally` is not reached) and the exception propagates. -/
def callMethod (methods : MethodTable) :
    Nat → CallState → String → String → CallState × Except String Nat
  | 0, st, _, _ => (st, Except.error "recursion limit")
  | fuel + 1, st, addr, mname =>
    match methods addr mname with
    | none => (st, Except.error ("No contract deployed at " ++ addr))
    | some body =>
      match body (toBody st) with
      | (b2, Except.error e) => (afterOuterCall st addr mname b2, Except.error e)
      | (b2, Except.ok v) =>
        let st2 := afterOuterCall st addr mname b2
        if st2.callDepth = 0 ∧ st2.draining = false ∧ st2.postQueue ≠ [] then
          match st2.postQueue with
          | [] => (st2, Except.ok v)
          | pm :: _ =>
            match callMethod methods fuel (drainState st2) pm.address pm.method with
            | (st4, Except.ok _) => ({ st4 with draining := false }, Except.ok v)
            | (st4, Except.error e) =>
              ({ callTrace st4 ("PostMessage error: " ++ e) with draining := false },
                Except.ok v)
        else (st2, Except.ok v)

/-- Engine-call state with no pending work (fresh top level). -/
def idleCallState : CallState :=
  { storages := [], postQueue := [], traces := [], traceEnabled := true,
    callDepth := 0, draining := false, execLog := [] }

/-- A method body that enqueues one post-message and then raises. -/
def enqueueThenRaise : BodyState → BodyState × Except String Nat :=
  fun b => ({ b with postQueue := b.postQueue ++ [⟨"0xbb", "ping", [], "0xaa"⟩] },
    Except.error "boom")

/-- A method table holding only the raising body at `0xaa.go`. -/
def raisingTable : MethodTable :=
  fun addr m => if addr = "0xaa" ∧ m = "go" then some enqueueThenRaise else none

/-- A method body that enqueues two post-messages and returns 1. -/
def enqueueTwoBody : BodyState → BodyState × Except String Nat :=
  fun b => ({ b with postQueue := b.postQueue ++
    [⟨"0xbb", "ping", [], "0xaa"⟩, ⟨"0xcc", "pong", [], "0xaa"⟩] }, Except.ok 1)

/-- A method body that raises. -/
def pingFailsBody : BodyState → BodyState × Except String Nat :=
  fun b => (b, Except.error "ping failed")

/-- A table with a posting method at `0xaa.go` and a failing one at
`0xbb.ping`. -/
def drainTable : MethodTable :=
  fun addr m =>
    if addr = "0xaa" ∧ m = "go" then some enqueueTwoBody
    else if addr = "0xbb" ∧ m = "ping" then some pingFailsBody
    else none

/-! ## Cross-contract hook handlers
(`SimEngine._handle_call_in_contract` / `_handle_deploy_in_contract`)

`vm._storage` is a reference to an `InmemManager` object; the handlers save
and restore which object is installed, so the embedding tracks partition
object identities (`Nat` refs) rather than contents.  Contract construction
and target-method execution run arbitrary user code and are parameters. -/

/-- Value of one lowercase hex character. -/
def hexCharVal (c : Char) : Nat :=
  if c.toNat ≤ 57 then c.toNat - 48 else c.toNat - 87

/-- Hex character pairs to bytes. -/
def hexPairsToBytes : List Char → Bytes
  | c1 :: c2 :: rest => (hexCharVal c1 * 16 + hexCharVal c2) :: hexPairsToBytes rest
  | _ => []

/-- Python `bytes.fromhex(addr[2:])`. -/
def hexToBytes (s : String) : Bytes := hexPairsToBytes (s.toList.drop 2)

/-- VMContext + engine state as seen by the cross-contract hook handlers.
`vmStorageRef` is the identity of the partition object currently installed
as `vm._storage`; `storages` maps each address to its partition object id;
`nextRef` generates ids for freshly created `InmemManager()` objects;
`messageSender` / `messageContract` model the `gl.message` context. -/
structure XState where
  vmStorageRef : Nat
  vmContractAddress : Bytes
  storages : AMap String Nat
  instances : AMap String Nat
  classes : AMap String Nat
  classCache : AMap String Nat
  codeHashCache : AMap String Nat
  accounts : AMap String Account
  contracts : AMap String ContractRec
  triggeredOps : List (String × String)
  messageSender : Bytes
  messageContract : Bytes
  nextRef : Nat
deriving DecidableEq, Repr

/-- The context-swapped state the target method of a cross-contract call
runs in: target partition installed (when the target has one), target
address set, message context swapped so the sender is the parent contract
and the contract is the target. -/
def callTargetState (st : XState) (addrKey : String) : XState :=
  let st1 := match lookupA st.storages addrKey with
    | some r => { st with vmStorageRef := r }
    | none => st
  { st1 with vmContractAddress := hexToBytes addrKey,
             messageSender := st.vmContractAddress,
             messageContract := hexToBytes addrKey }

/-- The `finally` of the call handler: partition, contract address and
message context back to their values at hook entry. -/
def restoreParent (entry st3 : XState) : XState :=
  { st3 with vmStorageRef := entry.vmStorageRef,
             vmContractAddress := entry.vmContractAddress,
             messageSender := entry.messageSender,
             messageContract := entry.messageContract }

/-- The `finally` of the deploy handler: partition and contract address
back to their entry values (the deploy handler does not swap the message
context). -/
def restoreParentStorage (entry st4 : XState) : XState :=
  { st4 with vmStorageRef := entry.vmStorageRef,
             vmContractAddress := entry.vmContractAddress }

/-- Model of `SimEngine._handle_call_in_contract`: an unknown target yields
the status-1 payload immediately (nothing was swapped); otherwise the method
runs in the swapped context and the handler returns `0x00 ++ encode(result)`
on success or `0x01 ++ utf8(str(e))` on any exception — the exception never
propagates — and the parent context is restored on every path. -/
def handleCallInContract (st : XState) (addr : String)
    (methodRun : XState → XState × Except String Nat) (encode : Nat → Bytes) :
    XState × Bytes :=
  let addrKey := pyLower addr
  match lookupA st.instances addrKey with
  | none => (st, 1 :: strBytes ("Contract not found at " ++ addrKey))
  | some _ =>
    match methodRun (callTargetState st addrKey) with
    | (st3, Except.ok v) => (restoreParent st st3, 0 :: encode v)
    | (st3, Except.error e) => (restoreParent st st3, 1 :: strBytes e)

/-- The deploying contract's address string, `"0x" + vm._contract_address.hex()`. -/
def deployerOf (st : XState) : String :=
  "0x" ++ String.mk (bytesToHexChars st.vmContractAddress)

/-- `StateStore.get_nonce`. -/
def nonceOf (st : XState) (addr : String) : Nat :=
  match lookupA st.accounts (pyLower addr) with
  | some a => a.nonce
  | none => 0

/-- `StateStore.increment_nonce` (creating the account if needed). -/
def incNonceX (st : XState) (addr : String) : XState :=
  match lookupA st.accounts (pyLower addr) with
  | some a =>
    { st with accounts := insertA st.accounts (pyLower addr) { a with nonce := a.nonce + 1 } }
  | none =>
    { st with accounts := insertA st.accounts (pyLower addr) ⟨pyLower addr, 0, 1⟩ }

/-- The child address a cross-contract deploy generates. -/
def deployChildAddr (st : XState) : String :=
  generateContractAddress (deployerOf st) (nonceOf st (deployerOf st))

/-- The state the child construction runs in: nonce bumped, a fresh
partition object created, installed and recorded for the child address, the
child address installed on the runtime. -/
def deployChildState (st : XState) : XState :=
  let childAddr := deployChildAddr st
  let st1 := incNonceX st (deployerOf st)
  { st1 with nextRef := st1.nextRef + 1,
             storages := insertA st1.storages (pyLower childAddr) st1.nextRef,
             vmStorageRef := st1.nextRef,
             vmContractAddress := hexToBytes childAddr }

/-- The bookkeeping after a successful child construction: instance, class,
caches and state-store registration, plus the triggered-ops entry.  The
class caches are keyed here by the code hash (the resolved temp path is
derived from it). -/
def deployRegister (st4 : XState) (childAddr codeHash : String) (inst : Nat) : XState :=
  { st4 with
      instances := insertA st4.instances (pyLower childAddr) inst,
      classes := insertA st4.classes (pyLower childAddr) inst,
      classCache := insertA st4.classCache codeHash inst,
      codeHashCache := insertA st4.codeHashCache codeHash inst,
      contracts := insertA st4.contracts (pyLower childAddr)
        ⟨pyLower childAddr, codeHash, inst⟩,
      triggeredOps := st4.triggeredOps ++ [("deploy", childAddr)] }

/-- Model of `SimEngine._handle_deploy_in_contract`: generate the child
address, bump the deployer nonce, create and install the child partition,
run the construction (arbitrary user code), register the child on success;
on every path the `finally` restores the parent partition and address; a
construction exception propagates. -/
def handleDeployInContract (st : XState) (codeHash : String)
    (construct : XState → XState × Except String Nat) (okBytes : Bytes) :
    XState × Except String Bytes :=
  match construct (deployChildState st) with
  | (st4, Except.ok inst) =>
    (restoreParentStorage st (deployRegister st4 (deployChildAddr st) codeHash inst),
      Except.ok okBytes)
  | (st4, Except.error e) => (restoreParentStorage st st4, Except.error e)

/-- An engine state with a single instance at `0xaaaa`. -/
def xPlain : XState :=
  { vmStorageRef := 0, vmContractAddress := [170, 170], storages := [("0xaaaa", 5)],
    instances := [("0xaaaa", 1)], classes := [], classCache := [], codeHashCache := [],
    accounts := [], contracts := [], triggeredOps := [], messageSender := [],
    messageContract := [], nextRef := 10 }

/-! ## Submission-bearing RPC handlers (`glsim/server.py`) -/

/-- The zero address signalling a deploy in the recipient field. -/
def addressZero : String := "0x0000000000000000000000000000000000000000"

/-- Decoded GenLayer payload of a signed raw transaction (the output of
`decode_genlayer_payload`; the Codec itself is outside these properties). -/
structure GlPayload where
  txType : String
  sender : String
  recipient : String
  nValidators : Nat
  callData : Option Bytes

/-- The largest sequential id among the recorded transactions (0 if none). -/
def maxGlId (txs : AMap String Tx) : Nat :=
  txs.foldr (fun p acc => max p.2.glTxId acc) 0

/-- Model of `_rpc_eth_send_raw_transaction` (server.py lines 252-341),
restricted to its state effects: allocate the sequential id, record the
PENDING transaction and its hash mappings (`register_tx_mappings` skips
falsy ids / hashes), run consensus over the engine execute closure, mark the
transaction with the consensus outcome, advance the block, and return the
external hash.  A call submission without calldata advances the block and
raises, leaving its transaction PENDING.  Result-byte shaping is not part of
the checked properties and is elided. -/
def ethTxRecord (p : GlPayload) (ethTxHash internalHash : String) (s : SimState) : Tx :=
  { hash := internalHash
    fromAddress := p.sender
    toAddress := if p.recipient = addressZero then none else some p.recipient
    status := TxStatus.PENDING
    txType := p.txType
    blockNumber := s.blockNumber + 1
    glTxId := s.nextGlTxId
    ethTxHash := ethTxHash
    errorMsg := none
    numValidators := p.nValidators
    consensusRotation := 0 }

/-- The state after id allocation, transaction recording and mapping
registration, before consensus (`register_tx_mappings` skips falsy ids and
hashes). -/
def ethPreState (p : GlPayload) (ethTxHash internalHash : String) (s : SimState) : SimState :=
  { s with
      nextGlTxId := s.nextGlTxId + 1
      transactions := insertA s.transactions internalHash (ethTxRecord p ethTxHash internalHash s)
      glToHash :=
        if s.nextGlTxId ≠ 0 then insertA s.glToHash s.nextGlTxId internalHash else s.glToHash
      ethHashToHash :=
        if ethTxHash ≠ "" then insertA s.ethHashToHash (pyLower ethTxHash) internalHash
        else s.ethHashToHash }

def rpcEthSendRawTransaction (execute : SimState → ExecOut)
    (numValidators maxRotations : Nat) (p : GlPayload) (ethTxHash internalHash : String)
    (s : SimState) : SimState × Except String String :=
  if p.txType = "deploy" ∨ p.callData.isSome then
    let co := runConsensus execute numValidators maxRotations
      (ethPreState p ethTxHash internalHash s)
    let tx2 :=
      { ethTxRecord p ethTxHash internalHash s with
          status := co.2.status
          errorMsg := co.2.error.bind (fun e => if e = "" then none else some e)
          consensusRotation := co.2.rotation }
    ({ co.1 with transactions := insertA co.1.transactions internalHash tx2,
                 blockNumber := co.1.blockNumber + 1 }, Except.ok ethTxHash)
  else
    ({ ethPreState p ethTxHash internalHash s with
         blockNumber := (ethPreState p ethTxHash internalHash s).blockNumber + 1 },
      Except.error "No calldata in transaction")

/-- Model of `_rpc_sim_deploy` (server.py lines 63-96): record a PENDING
transaction (no sequential id is allocated; `gl_tx_id` keeps its default 0),
run the engine deploy, mark FINALIZED or FAILED, advance the block on both
paths, re-raising the deploy error. -/
def rpcSimDeployTx (txHash deployer : String) (s : SimState) : Tx :=
  { hash := txHash
    fromAddress := deployer
    toAddress := none
    status := TxStatus.PENDING
    txType := "deploy"
    blockNumber := s.blockNumber + 1
    glTxId := 0
    ethTxHash := ""
    errorMsg := none
    numValidators := 1
    consensusRotation := 0 }

/-- Record (or overwrite) a transaction in the state-store map. -/
def withTxInserted (s : SimState) (h : String) (t : Tx) : SimState :=
  { s with transactions := insertA s.transactions h t }

/-- `StateStore.next_block`. -/
def bumpBlock (s : SimState) : SimState := { s with blockNumber := s.blockNumber + 1 }

def rpcSimDeploy (deployFn : SimState → SimState × Except String String)
    (txHash deployer : String) (s : SimState) : SimState × Except String String :=
  match deployFn (withTxInserted s txHash (rpcSimDeployTx txHash deployer s)) with
  | (s2, Except.ok addr) =>
    (bumpBlock (withTxInserted s2 txHash
      { rpcSimDeployTx txHash deployer s with
          status := TxStatus.FINALIZED, toAddress := some addr }), Except.ok addr)
  | (s2, Except.error e) =>
    (bumpBlock (withTxInserted s2 txHash
      { rpcSimDeployTx txHash deployer s with
          status := TxStatus.FAILED, errorMsg := some e }), Except.error e)

def rpcSimCallTx (txHash caller toAddr : String) (s : SimState) : Tx :=
  { hash := txHash
    fromAddress := caller
    toAddress := some toAddr
    status := TxStatus.PENDING
    txType := "call"
    blockNumber := s.blockNumber + 1
    glTxId := 0
    ethTxHash := ""
    errorMsg := none
    numValidators := 1
    consensusRotation := 0 }

/-- Model of `_rpc_sim_call` (server.py lines 97-133), same shape as
`_rpc_sim_deploy`: no sequential id, block advanced once on both paths. -/
def rpcSimCall (callFn : SimState → SimState × Except String Nat)
    (txHash caller toAddr : String) (s : SimState) : SimState × Except String Nat :=
  match callFn (withTxInserted s txHash (rpcSimCallTx txHash caller toAddr s)) with
  | (s2, Except.ok v) =>
    (bumpBlock (withTxInserted s2 txHash
      { rpcSimCallTx txHash caller toAddr s with status := TxStatus.FINALIZED }),
      Except.ok v)
  | (s2, Except.error e) =>
    (bumpBlock (withTxInserted s2 txHash
      { rpcSimCallTx txHash caller toAddr s with
          status := TxStatus.FAILED, errorMsg := some e }), Except.error e)

/-- What the engine execute closures (`deploy_from_code`,
`call_from_calldata`) additionally preserve: they never touch the block
counter, the sequential-id counter or the transaction map (nothing in the
engine call path calls `next_block`, `allocate_gl_tx_id` or
`add_transaction`). -/
def ExecCountersStable (execute : SimState → ExecOut) : Prop :=
  ∀ s, (execute s).st.blockNumber = s.blockNumber ∧
       (execute s).st.nextGlTxId = s.nextGlTxId ∧
       (execute s).st.transactions = s.transactions ∧
       (execute s).st.snapshots = s.snapshots ∧
       (execute s).st.snapshotCounter = s.snapshotCounter

/-- The same preservation for the plain engine closures used by `sim_deploy`
and `sim_call` (`engine.deploy`, `engine.call_method`). -/
def SimpleFnStable {α : Type} (f : SimState → SimState × α) : Prop :=
  ∀ s, (f s).1.blockNumber = s.blockNumber ∧ (f s).1.nextGlTxId = s.nextGlTxId ∧
       (f s).1.transactions = s.transactions

/-- A deploy closure that succeeds at a fixed address without touching the
state (for concrete runs). -/
def deployOkConst : SimState → SimState × Except String String :=
  fun s => (s, Except.ok "0xcc")

/-- A call closure that succeeds with a fixed value. -/
def callOkConst : SimState → SimState × Except String Nat :=
  fun s => (s, Except.ok 7)

/-- An execute closure whose leader raises and captures nothing. -/
def execRaises : SimState → ExecOut :=
  fun s => ⟨s, [], Except.error "leader failed"⟩

/-! ## Map lemmas -/

theorem lookupA_insert_self {K V : Type} [DecidableEq K] (m : AMap K V) (k : K) (v : V) :
    lookupA (insertA m k v) k = some v := by
  induction m with
  | nil => simp [insertA, lookupA]
  | cons p rest ih =>
    obtain ⟨a, b⟩ := p
    by_cases h : a = k
    · simp [insertA, h, lookupA]
    · simp [insertA, h, lookupA, ih]

theorem not_mem_keys_of_lookupA_none {K V : Type} [DecidableEq K] {m : AMap K V} {k : K}
    (h : lookupA m k = none) : k ∉ keysOf m := by
  induction m with
  | nil => simp [keysOf]
  | cons p rest ih =>
    obtain ⟨a, b⟩ := p
    by_cases hak : a = k
    · simp [lookupA, hak] at h
    · simp only [lookupA, if_neg hak] at h
      simp [keysOf] at ih ⊢
      exact ⟨fun he => hak he.symm, ih h⟩

theorem pruneKeys_self {K V : Type} [DecidableEq K] (m : AMap K V) :
    pruneKeys (keysOf m) m = m := by
  apply List.filter_eq_self.mpr
  intro p hp
  simp only [decide_eq_true_eq]
  exact List.mem_map.mpr ⟨p, hp, rfl⟩

theorem pruneKeys_extends {K V : Type} [DecidableEq K] {old new : AMap K V}
    (h : MapExtends old new) : pruneKeys (keysOf old) new = old := by
  obtain ⟨added, rfl, hfresh⟩ := h
  rw [pruneKeys, List.filter_append]
  have h1 : List.filter (fun p => decide (p.1 ∈ keysOf old)) old = old := pruneKeys_self old
  have h2 : List.filter (fun p => decide (p.1 ∈ keysOf old)) added = [] := by
    apply List.filter_eq_nil_iff.mpr
    intro p hp
    simp only [decide_eq_true_eq]
    exact not_mem_keys_of_lookupA_none (hfresh p hp)
  rw [h1, h2, List.append_nil]

theorem mapExtends_refl {K V : Type} [DecidableEq K] (m : AMap K V) : MapExtends m m :=
  ⟨[], (List.append_nil m).symm, by simp⟩

/-! ## CoreEq lemmas -/

theorem coreEq_refl (s : SimState) : CoreEq s s := ⟨rfl, rfl, rfl, rfl, rfl⟩

theorem coreEq_trans {a b c : SimState} (h1 : CoreEq a b) (h2 : CoreEq b c) : CoreEq a c := by
  obtain ⟨x1, x2, x3, x4, x5⟩ := h1
  obtain ⟨y1, y2, y3, y4, y5⟩ := h2
  exact ⟨x1.trans y1, x2.trans y2, x3.trans y3, x4.trans y4, x5.trans y5⟩

/-- After a rejected rotation, `_restore_storages` brings the claimed state
components back to their values at the rotation entry `s`.  `s2` is the
engine state after leader execution; the stored snapshot is the one made from
`s`, and the rollback data also came from `s`. -/
theorem restoreStorages_restores (s s2 : SimState) (sid : Nat)
    (hsnap : lookupA s2.snapshots sid = some (mkSnap s))
    (hinst : MapExtends s.instances s2.instances)
    (hcontr : MapExtends s.contracts s2.contracts) :
    CoreEq (restoreStorages s2 ⟨s.storages, s.vmStorage, keysOf s.instances, keysOf s.classes⟩ sid) s := by
  unfold restoreStorages restoreSnapshot
  rw [hsnap]
  refine ⟨rfl, ?_, ?_, rfl, rfl⟩
  · show pruneKeys (keysOf s.instances) (pruneKeys (mkSnap s).instancesKeys s2.instances) = s.instances
    have : pruneKeys (mkSnap s).instancesKeys s2.instances = s.instances := pruneKeys_extends hinst
    rw [this]
    exact pruneKeys_self s.instances
  · show pruneKeys (mkSnap s).contractsKeys s2.contracts = s.contracts
    exact pruneKeys_extends hcontr

/-- Induction over the rotation loop: every run either finalizes with a
strict majority of agree votes or returns UNDETERMINED with the claimed state
components equal to the loop-entry values. -/
theorem consensusGo_spec (execute : SimState → ExecOut) (n maxR : Nat)
    (hw : ExecWellBehaved execute) :
    ∀ (r idx : Nat) (s : SimState) (last : Attempt),
      ((consensusGo execute n maxR r idx s last).2.status = TxStatus.FINALIZED ∧
        n / 2 + 1 ≤ (consensusGo execute n maxR r idx s last).2.votes.count "agree") ∨
      ((consensusGo execute n maxR r idx s last).2.status = TxStatus.UNDETERMINED ∧
        CoreEq (consensusGo execute n maxR r idx s last).1 s) := by
  intro r
  induction r with
  | zero =>
    intro idx s last
    exact Or.inr ⟨rfl, coreEq_refl s⟩
  | succ r ih =>
    intro idx s last
    obtain ⟨hinst, hcontr, hsnaps, _⟩ := hw (createSnapshot s).1
    have hgo : consensusGo execute n maxR (r + 1) idx s last =
        if n / 2 + 1 ≤ (computeVotes (execute (createSnapshot s).1).captured n).count "agree" then
          ((execute (createSnapshot s).1).st,
            { status := TxStatus.FINALIZED,
              result := match (execute (createSnapshot s).1).res with
                | Except.ok p => some p.1 | Except.error _ => none,
              error := match (execute (createSnapshot s).1).res with
                | Except.ok _ => none | Except.error e => some e,
              resultBytes := match (execute (createSnapshot s).1).res with
                | Except.ok p => p.2 | Except.error _ => [],
              votes := computeVotes (execute (createSnapshot s).1).captured n,
              rotation := idx })
        else
          consensusGo execute n maxR r (idx + 1)
            (restoreStorages (execute (createSnapshot s).1).st
              (snapshotStorages (createSnapshot s).1) (createSnapshot s).2)
            { result := match (execute (createSnapshot s).1).res with
                | Except.ok p => some p.1 | Except.error _ => none,
              error := match (execute (createSnapshot s).1).res with
                | Except.ok _ => none | Except.error e => some e,
              resultBytes := match (execute (createSnapshot s).1).res with
                | Except.ok p => p.2 | Except.error _ => [],
              votes := computeVotes (execute (createSnapshot s).1).captured n } := rfl
    rw [hgo]
    by_cases hmaj :
        n / 2 + 1 ≤ (computeVotes (execute (createSnapshot s).1).captured n).count "agree"
    · rw [if_pos hmaj]
      exact Or.inl ⟨rfl, hmaj⟩
    · rw [if_neg hmaj]
      have hrest : CoreEq (restoreStorages (execute (createSnapshot s).1).st
          (snapshotStorages (createSnapshot s).1) (createSnapshot s).2) s := by
        have hlook : lookupA (execute (createSnapshot s).1).st.snapshots (createSnapshot s).2 =
            some (mkSnap s) := by
          rw [hsnaps]
          exact lookupA_insert_self s.snapshots (s.snapshotCounter + 1) (mkSnap s)
        exact restoreStorages_restores s (execute (createSnapshot s).1).st
          (createSnapshot s).2 hlook hinst hcontr
      rcases ih (idx + 1) (restoreStorages (execute (createSnapshot s).1).st
          (snapshotStorages (createSnapshot s).1) (createSnapshot s).2)
          { result := match (execute (createSnapshot s).1).res with
              | Except.ok p => some p.1 | Except.error _ => none,
            error := match (execute (createSnapshot s).1).res with
              | Except.ok _ => none | Except.error e => some e,
            resultBytes := match (execute (createSnapshot s).1).res with
              | Except.ok p => p.2 | Except.error _ => [],
            votes := computeVotes (execute (createSnapshot s).1).captured n } with
        h | h
      · exact Or.inl h
      · exact Or.inr ⟨h.1, coreEq_trans h.2 hrest⟩

/-- C1: every run of `run_consensus` with validator count `N` returns either
FINALIZED, in which case the returning rotation's vote list contains at least
`N / 2 + 1` agree votes, or UNDETERMINED, in which case the storage-partition
map, the instance map, the contracts map, the block counter and the
sequential-id counter equal their values at entry to `run_consensus`. -/
theorem consensus_finalized_or_rolled_back (execute : SimState → ExecOut)
    (n maxRotations : Nat) (s0 : SimState) (hw : ExecWellBehaved execute) :
    ((runConsensus execute n maxRotations s0).2.status = TxStatus.FINALIZED ∧
      n / 2 + 1 ≤ (runConsensus execute n maxRotations s0).2.votes.count "agree") ∨
    ((runConsensus execute n maxRotations s0).2.status = TxStatus.UNDETERMINED ∧
      CoreEq (runConsensus execute n maxRotations s0).1 s0) :=
  consensusGo_spec execute n (if maxRotations < 1 then 1 else maxRotations) hw
    (if maxRotations < 1 then 1 else maxRotations) 0 s0
    { result := none, error := none, resultBytes := [], votes := [] }

theorem consensus_finalized_or_rolled_back_witness :
    ((runConsensus (fun s => ⟨s, [], Except.error "boom"⟩) 3 2 emptyState).2.status =
        TxStatus.FINALIZED ∧
      3 / 2 + 1 ≤ (runConsensus (fun s => ⟨s, [], Except.error "boom"⟩) 3 2
        emptyState).2.votes.count "agree") ∨
    ((runConsensus (fun s => ⟨s, [], Except.error "boom"⟩) 3 2 emptyState).2.status =
        TxStatus.UNDETERMINED ∧
      CoreEq (runConsensus (fun s => ⟨s, [], Except.error "boom"⟩) 3 2 emptyState).1
        emptyState) :=
  consensus_finalized_or_rolled_back (fun s => ⟨s, [], Except.error "boom"⟩) 3 2 emptyState
    (fun s => ⟨mapExtends_refl s.instances, mapExtends_refl s.contracts, rfl, rfl⟩)

/-! ## C2: vote computation -/

theorem range_map_const {α : Type} (n : Nat) (a : α) :
    (List.range n).map (fun _ => a) = List.replicate n a := by
  induction n with
  | zero => rfl
  | succ n ih =>
    rw [List.range_succ, List.map_append, ih, List.replicate_succ']
    rfl

theorem validatorAgrees_true_iff (captured : List Witness) :
    validatorAgrees captured = true ↔
      ∀ w ∈ captured, w.validatorFn (VmOutcome.ret w.storedResult) = Except.ok true := by
  induction captured with
  | nil => simp [validatorAgrees]
  | cons c rest ih =>
    have hstep : validatorAgrees (c :: rest) =
        match c.validatorFn (VmOutcome.ret c.storedResult) with
        | Except.ok true => validatorAgrees rest
        | _ => false := rfl
    cases hfy : c.validatorFn (VmOutcome.ret c.storedResult) with
    | error e =>
      simp only [hstep, hfy]
      constructor
      · intro h
        simp at h
      · intro h
        have hc := h c (List.mem_cons_self c rest)
        rw [hfy] at hc
        cases hc
    | ok b =>
      cases b with
      | true =>
        simp only [hstep, hfy]
        rw [ih]
        constructor
        · intro h w hw
          rcases List.mem_cons.mp hw with he | hw2
          · rw [he]
            exact hfy
          · exact h w hw2
        · intro h w hw
          exact h w (List.mem_cons_of_mem _ hw)
      | false =>
        simp only [hstep, hfy]
        constructor
        · intro h
          simp at h
        · intro h
          have hc := h c (List.mem_cons_self c rest)
          rw [hfy] at hc
          cases hc

/-- C2: vote computation.  With at most one validator the vote list is a
single agree; with more than one validator and no captured witnesses it is
all agree; otherwise every one of the `n` validators runs the witness list
against the validator closures (each invoked on the leader's captured result
wrapped as a success Return) and votes disagree exactly when some invocation
throws or returns false. -/
theorem consensus_vote_computation (captured : List Witness) (n : Nat) :
    (n ≤ 1 → computeVotes captured n = ["agree"]) ∧
    (1 < n → captured = [] → computeVotes captured n = List.replicate n "agree") ∧
    (1 < n → captured ≠ [] →
      computeVotes captured n =
        List.replicate n (if validatorAgrees captured then "agree" else "disagree") ∧
      (validatorAgrees captured = true ↔
        ∀ w ∈ captured, w.validatorFn (VmOutcome.ret w.storedResult) = Except.ok true)) := by
  refine ⟨?_, ?_, ?_⟩
  · intro h
    simp [computeVotes, h]
  · intro h he
    subst he
    simp [computeVotes, Nat.not_le.mpr h]
  · intro h hne
    refine ⟨?_, validatorAgrees_true_iff captured⟩
    rw [computeVotes, if_neg (Nat.not_le.mpr h), if_neg (by simpa using hne)]
    exact range_map_const n _

theorem consensus_vote_computation_witness :
    computeVotes [] 1 = ["agree"] ∧ computeVotes [] 5 = List.replicate 5 "agree" ∧
    computeVotes [⟨7, 0, fun _ => Except.ok true⟩] 5 =
      List.replicate 5 (if validatorAgrees [⟨7, 0, fun _ => Except.ok true⟩] then "agree"
        else "disagree") :=
  ⟨(consensus_vote_computation [] 1).1 (by decide),
   (consensus_vote_computation [] 5).2.1 (by decide) rfl,
   ((consensus_vote_computation [⟨7, 0, fun _ => Except.ok true⟩] 5).2.2 (by decide)
     (by simp)).1⟩

/-! ## C5: restore_snapshot and higher snapshot ids -/

/-- C5 counterexample: after two snapshots (ids 1 and 2), restoring id 1
succeeds but does NOT remove snapshot 2 — the higher id is still present and
can still be restored afterwards, contradicting the claim that all higher
ids are removed. -/
theorem restore_snapshot_keeps_higher_ids_cex :
    (restoreSnapshot 1 twoSnapState).2 = true ∧
    lookupA (restoreSnapshot 1 twoSnapState).1.snapshots 2 ≠ none ∧
    (restoreSnapshot 2 (restoreSnapshot 1 twoSnapState).1).2 = true := by
  refine ⟨by decide, by decide, by decide⟩

/-- C5 amended: restoring a missing snapshot id returns false and changes
nothing; restoring an existing id returns true and leaves the snapshot map
untouched, so snapshots with higher identifiers are retained and remain
restorable. -/
theorem restore_snapshot_missing_or_keep (s : SimState) (sid : Nat) :
    (lookupA s.snapshots sid = none → restoreSnapshot sid s = (s, false)) ∧
    (∀ snap, lookupA s.snapshots sid = some snap →
      (restoreSnapshot sid s).2 = true ∧
      (restoreSnapshot sid s).1.snapshots = s.snapshots) := by
  constructor
  · intro h
    simp [restoreSnapshot, h]
  · intro snap h
    simp [restoreSnapshot, h]

theorem restore_snapshot_missing_or_keep_witness :
    restoreSnapshot 99 twoSnapState = (twoSnapState, false) ∧
    ((restoreSnapshot 1 twoSnapState).2 = true ∧
      (restoreSnapshot 1 twoSnapState).1.snapshots = twoSnapState.snapshots) :=
  ⟨(restore_snapshot_missing_or_keep twoSnapState 99).1 (by decide),
   (restore_snapshot_missing_or_keep twoSnapState 1).2 (mkSnap emptyState) (by decide)⟩

/-! ## C4: snapshot round-trip -/

theorem lookupA_insert_ne {K V : Type} [DecidableEq K] (m : AMap K V) {k k2 : K} (v : V)
    (h : k ≠ k2) : lookupA (insertA m k v) k2 = lookupA m k2 := by
  induction m with
  | nil => simp [insertA, lookupA, h]
  | cons p rest ih =>
    obtain ⟨a, b⟩ := p
    by_cases hak : a = k
    · subst hak
      simp [insertA, lookupA, h]
    · simp only [insertA, if_neg hak, lookupA]
      by_cases ha2 : a = k2
      · simp [ha2]
      · simp [ha2, ih]

theorem keysOf_cons {K V : Type} (a : K) (b : V) (rest : AMap K V) :
    keysOf ((a, b) :: rest) = a :: keysOf rest := rfl

theorem mem_keys_of_lookupA_some {K V : Type} [DecidableEq K] {m : AMap K V} {k : K} {v : V}
    (h : lookupA m k = some v) : k ∈ keysOf m := by
  induction m with
  | nil => cases h
  | cons p rest ih =>
    obtain ⟨a, b⟩ := p
    rw [keysOf_cons]
    by_cases hak : a = k
    · exact List.mem_cons.mpr (Or.inl hak.symm)
    · simp only [lookupA, if_neg hak] at h
      exact List.mem_cons.mpr (Or.inr (ih h))

theorem mem_keys_insertA {K V : Type} [DecidableEq K] {m : AMap K V} {k k2 : K} {v : V}
    (h : k2 ∈ keysOf (insertA m k v)) : k2 = k ∨ k2 ∈ keysOf m := by
  induction m with
  | nil =>
    rw [show insertA ([] : AMap K V) k v = [(k, v)] from rfl, keysOf_cons] at h
    rcases List.mem_cons.mp h with h2 | h2
    · exact Or.inl h2
    · cases h2
  | cons p rest ih =>
    obtain ⟨a, b⟩ := p
    by_cases hak : a = k
    · simp only [insertA, if_pos hak] at h
      rw [keysOf_cons] at h
      rcases List.mem_cons.mp h with h2 | h2
      · exact Or.inl h2
      · exact Or.inr (by rw [keysOf_cons]; exact List.mem_cons_of_mem _ h2)
    · simp only [insertA, if_neg hak] at h
      rw [keysOf_cons] at h
      rcases List.mem_cons.mp h with h2 | h2
      · exact Or.inr (by rw [keysOf_cons, h2]; exact List.mem_cons_self _ _)
      · rcases ih h2 with h3 | h3
        · exact Or.inl h3
        · exact Or.inr (by rw [keysOf_cons]; exact List.mem_cons_of_mem _ h3)

/-- No engine / state-store operation disturbs an existing snapshot entry,
and the snapshot-key invariant is preserved. -/
theorem applyOp_snapshots_stable (s : SimState) (op : EngineOp) {sid : Nat} {d : Snap}
    (hs : lookupA s.snapshots sid = some d) (hinv : SnapInv s) :
    lookupA (applyOp s op).snapshots sid = some d ∧ SnapInv (applyOp s op) := by
  cases op with
  | fundAccount addr amt =>
    cases hl : lookupA s.accounts (pyLower addr) with
    | none => simpa [applyOp, hl, SnapInv] using ⟨hs, hinv⟩
    | some a => simpa [applyOp, hl, SnapInv] using ⟨hs, hinv⟩
  | incrementNonce addr =>
    cases hl : lookupA s.accounts (pyLower addr) with
    | none => simpa [applyOp, hl, SnapInv] using ⟨hs, hinv⟩
    | some a => simpa [applyOp, hl, SnapInv] using ⟨hs, hinv⟩
  | nextBlock => simpa [applyOp, SnapInv] using ⟨hs, hinv⟩
  | allocateGlTxId => simpa [applyOp, SnapInv] using ⟨hs, hinv⟩
  | addTransaction tx => simpa [applyOp, SnapInv] using ⟨hs, hinv⟩
  | registerContract addr path payload => simpa [applyOp, SnapInv] using ⟨hs, hinv⟩
  | deployEffect addr inst cls => simpa [applyOp, SnapInv] using ⟨hs, hinv⟩
  | contractWrite addr slot off what =>
    cases hl : lookupA s.storages addr with
    | none => simpa [applyOp, hl, SnapInv] using ⟨hs, hinv⟩
    | some st => simpa [applyOp, hl, SnapInv] using ⟨hs, hinv⟩
  | snapshotOp =>
    have hsid : sid ≤ s.snapshotCounter := hinv sid (mem_keys_of_lookupA_some hs)
    have hne : s.snapshotCounter + 1 ≠ sid := by omega
    constructor
    · show lookupA (insertA s.snapshots (s.snapshotCounter + 1) (mkSnap s)) sid = some d
      rw [lookupA_insert_ne _ _ hne]
      exact hs
    · intro k hk
      rcases mem_keys_insertA hk with hk2 | hk2
      · subst hk2
        exact Nat.le_refl _
      · exact Nat.le_trans (hinv k hk2) (Nat.le_succ _)
  | restoreOp sid2 =>
    cases hl : lookupA s.snapshots sid2 with
    | none => simpa [applyOp, restoreSnapshot, hl, SnapInv] using ⟨hs, hinv⟩
    | some snap => simpa [applyOp, restoreSnapshot, hl, SnapInv] using ⟨hs, hinv⟩

theorem applyOps_snapshots_stable (ops : List EngineOp) (s : SimState) {sid : Nat} {d : Snap}
    (hs : lookupA s.snapshots sid = some d) (hinv : SnapInv s) :
    lookupA (applyOps s ops).snapshots sid = some d ∧ SnapInv (applyOps s ops) := by
  induction ops generalizing s with
  | nil => exact ⟨hs, hinv⟩
  | cons op rest ih =>
    obtain ⟨h1, h2⟩ := applyOp_snapshots_stable s op hs hinv
    exact ih (applyOp s op) h1 h2

/-- C4 counterexample: snapshot, then a contract storage write through the
host interface, then restore.  The restore succeeds but the storage-partition
map is NOT equal to its pre-snapshot value: the engine snapshot records only
the key set of the partition map, never the partition contents, so the write
survives the restore.  This refutes the claimed deep-equality round-trip. -/
theorem snapshot_roundtrip_storage_cex :
    (restoreSnapshot (createSnapshot oneContractState).2 oneContractMutated).2 = true ∧
    (restoreSnapshot (createSnapshot oneContractState).2 oneContractMutated).1.storages ≠
      oneContractState.storages := by
  refine ⟨by decide, by decide⟩

/-- C4 amended: snapshot, then any sequence of engine / state-store
mutations, then restore.  The restore succeeds; the accounts map, the
transaction map, the block counter and the sequential-id counter are equal to
their pre-snapshot values; the contracts, instance and storage maps are only
pruned back to the snapshot-time key sets, keeping their current (possibly
mutated) values, so in particular storage-content writes survive the
restore. -/
theorem snapshot_roundtrip_restores (s0 : SimState) (ops : List EngineOp)
    (hinv : SnapInv s0) :
    (restoreSnapshot (createSnapshot s0).2 (applyOps (createSnapshot s0).1 ops)).2 = true ∧
    (restoreSnapshot (createSnapshot s0).2 (applyOps (createSnapshot s0).1 ops)).1.accounts =
      s0.accounts ∧
    (restoreSnapshot (createSnapshot s0).2 (applyOps (createSnapshot s0).1 ops)).1.transactions =
      s0.transactions ∧
    (restoreSnapshot (createSnapshot s0).2 (applyOps (createSnapshot s0).1 ops)).1.blockNumber =
      s0.blockNumber ∧
    (restoreSnapshot (createSnapshot s0).2 (applyOps (createSnapshot s0).1 ops)).1.nextGlTxId =
      s0.nextGlTxId ∧
    (restoreSnapshot (createSnapshot s0).2 (applyOps (createSnapshot s0).1 ops)).1.contracts =
      pruneKeys (keysOf s0.contracts) (applyOps (createSnapshot s0).1 ops).contracts ∧
    (restoreSnapshot (createSnapshot s0).2 (applyOps (createSnapshot s0).1 ops)).1.instances =
      pruneKeys (keysOf s0.instances) (applyOps (createSnapshot s0).1 ops).instances ∧
    (restoreSnapshot (createSnapshot s0).2 (applyOps (createSnapshot s0).1 ops)).1.storages =
      pruneKeys (keysOf s0.storages) (applyOps (createSnapshot s0).1 ops).storages := by
  have hs1 : lookupA (createSnapshot s0).1.snapshots (createSnapshot s0).2 = some (mkSnap s0) :=
    lookupA_insert_self s0.snapshots (s0.snapshotCounter + 1) (mkSnap s0)
  have hinv1 : SnapInv (createSnapshot s0).1 := by
    intro k hk
    rcases mem_keys_insertA hk with hk2 | hk2
    · subst hk2
      exact Nat.le_refl _
    · exact Nat.le_trans (hinv k hk2) (Nat.le_succ _)
  obtain ⟨hlook, _⟩ := applyOps_snapshots_stable ops (createSnapshot s0).1 hs1 hinv1
  rw [restoreSnapshot, hlook]
  exact ⟨rfl, rfl, rfl, rfl, rfl, rfl, rfl, rfl⟩

theorem snapshot_roundtrip_restores_witness :
    (restoreSnapshot (createSnapshot oneContractState).2
      (applyOps (createSnapshot oneContractState).1
        [EngineOp.contractWrite "0xaa" [0] 0 [42]])).2 = true ∧
    (restoreSnapshot (createSnapshot oneContractState).2
      (applyOps (createSnapshot oneContractState).1
        [EngineOp.contractWrite "0xaa" [0] 0 [42]])).1.accounts = oneContractState.accounts ∧
    (restoreSnapshot (createSnapshot oneContractState).2
      (applyOps (createSnapshot oneContractState).1
        [EngineOp.contractWrite "0xaa" [0] 0 [42]])).1.transactions =
      oneContractState.transactions ∧
    (restoreSnapshot (createSnapshot oneContractState).2
      (applyOps (createSnapshot oneContractState).1
        [EngineOp.contractWrite "0xaa" [0] 0 [42]])).1.blockNumber =
      oneContractState.blockNumber ∧
    (restoreSnapshot (createSnapshot oneContractState).2
      (applyOps (createSnapshot oneContractState).1
        [EngineOp.contractWrite "0xaa" [0] 0 [42]])).1.nextGlTxId =
      oneContractState.nextGlTxId ∧
    (restoreSnapshot (createSnapshot oneContractState).2
      (applyOps (createSnapshot oneContractState).1
        [EngineOp.contractWrite "0xaa" [0] 0 [42]])).1.contracts =
      pruneKeys (keysOf oneContractState.contracts)
        (applyOps (createSnapshot oneContractState).1
          [EngineOp.contractWrite "0xaa" [0] 0 [42]]).contracts ∧
    (restoreSnapshot (createSnapshot oneContractState).2
      (applyOps (createSnapshot oneContractState).1
        [EngineOp.contractWrite "0xaa" [0] 0 [42]])).1.instances =
      pruneKeys (keysOf oneContractState.instances)
        (applyOps (createSnapshot oneContractState).1
          [EngineOp.contractWrite "0xaa" [0] 0 [42]]).instances ∧
    (restoreSnapshot (createSnapshot oneContractState).2
      (applyOps (createSnapshot oneContractState).1
        [EngineOp.contractWrite "0xaa" [0] 0 [42]])).1.storages =
      pruneKeys (keysOf oneContractState.storages)
        (applyOps (createSnapshot oneContractState).1
          [EngineOp.contractWrite "0xaa" [0] 0 [42]]).storages :=
  snapshot_roundtrip_restores oneContractState [EngineOp.contractWrite "0xaa" [0] 0 [42]]
    (by decide)

/-! ## C9: contract address generation -/

/-- Validation of the executable SHA-256 against the standard test vector
for "abc". -/
theorem sha256_abc_vector : bytesToHexChars (sha256 (strBytes "abc")) =
    "ba7816bf8f01cfea414140de5dae2223b00361a396177a9cb410ff61f20015ad".toList := by decide

theorem bytesToHexChars_take (bs : Bytes) (k : Nat) :
    (bytesToHexChars bs).take (2 * k) = bytesToHexChars (bs.take k) := by
  induction bs generalizing k with
  | nil => simp [bytesToHexChars]
  | cons b rest ih =>
    cases k with
    | zero => simp [bytesToHexChars]
    | succ k =>
      have hcons : bytesToHexChars (b :: rest) =
          hexDigitChar (b / 16) :: hexDigitChar (b % 16) :: bytesToHexChars rest := rfl
      have h2 : 2 * (k + 1) = 2 * k + 1 + 1 := by ring
      rw [hcons, h2, List.take_succ_cons, List.take_succ_cons, ih]
      rfl

/-- C9 counterexample: at deployer `"a"` and nonce `0`, the address the code
computes (the first 40 hexdigest characters, i.e. the HIGH 20 bytes of the
digest) differs from the spec's "low 20 bytes of the SHA-256 digest" (the
trailing 20 bytes). -/
theorem contract_address_not_low_bytes_cex :
    generateContractAddress "a" 0 ≠ generateContractAddressSpecLow "a" 0 := by decide

/-- C9 amended: `generate_contract_address(deployer, nonce)` returns the
FIRST (high-order) 20 bytes of the SHA-256 digest of the UTF-8 bytes of
`deployer ++ ":" ++ decimal(nonce)`, rendered as 0x-prefixed lowercase
hex. -/
theorem contract_address_first_20_bytes (deployer : String) (nonce : Nat) :
    generateContractAddress deployer nonce =
      String.mk ('0' :: 'x' :: bytesToHexChars
        ((sha256 (strBytes (deployer ++ ":" ++ toString nonce))).take 20)) := by
  unfold generateContractAddress
  rw [show (40 : Nat) = 2 * 20 from rfl, bytesToHexChars_take]

/-! ## C3: no path ever captures a validator witness -/

theorem matchWebMockGo_captured (vm : VmHost) (url meth : String) :
    ∀ (i : Nat) (mocks : List ((String → Bool) × WebMockData)),
      (matchWebMockGo vm url meth i mocks).1.captured = vm.captured := by
  intro i mocks
  induction mocks generalizing i with
  | nil => rfl
  | cons p rest ih =>
    obtain ⟨pat, resp⟩ := p
    by_cases hp : pat url
    · by_cases hm : resp.method = meth
      · simp [matchWebMockGo, hp, hm]
      · simp only [matchWebMockGo, if_pos hp, if_neg hm]
        exact ih (i + 1)
    · simp only [matchWebMockGo, if_neg hp]
      exact ih (i + 1)

theorem matchLlmMockGo_captured (vm : VmHost) (prompt : String) :
    ∀ (i : Nat) (mocks : List ((String → Bool) × String)),
      (matchLlmMockGo vm prompt i mocks).1.captured = vm.captured := by
  intro i mocks
  induction mocks generalizing i with
  | nil => rfl
  | cons p rest ih =>
    obtain ⟨pat, resp⟩ := p
    by_cases hp : pat prompt
    · simp [matchLlmMockGo, hp]
    · simp only [matchLlmMockGo, if_neg hp]
      exact ih (i + 1)

theorem handleGlCall_captured (encode : Nat → Bytes) (vm : VmHost) (req : GlRequest) :
    (handleGlCall encode vm req).1.captured = vm.captured := by
  cases req with
  | retReq v => rfl
  | rollback msg => rfl
  | traceReq msg =>
    show (vmTrace vm msg).captured = vm.captured
    unfold vmTrace
    split <;> rfl
  | sandbox => rfl
  | runNondet d =>
    show (handleRunNondet encode vm d).1.captured = vm.captured
    unfold handleRunNondet
    cases d.dataLeader with
    | none => rfl
    | some f => cases hf : f () <;> simp [hf]
  | webRequest url meth =>
    have hcap := matchWebMockGo_captured vm url meth 0 vm.webMocks
    show (match matchWebMockGo vm url meth 0 vm.webMocks with
      | (vm2, some resp) => (vm2, Except.ok (GlResponse.okWeb resp))
      | (vm2, none) =>
        (vm2, Except.error ("No web mock for " ++ meth ++ " " ++ url))).1.captured =
      vm.captured
    cases hm : matchWebMockGo vm url meth 0 vm.webMocks with
    | mk vm2 r =>
      rw [hm] at hcap
      cases r <;> simpa using hcap
  | execPrompt prompt =>
    have hcap := matchLlmMockGo_captured vm prompt 0 vm.llmMocks
    show (match matchLlmMockGo vm prompt 0 vm.llmMocks with
      | (vm2, some resp) => (vm2, Except.ok (GlResponse.okLlm resp))
      | (vm2, none) =>
        (vm2, Except.error ("No LLM mock for prompt: " ++ prompt))).1.captured =
      vm.captured
    cases hm : matchLlmMockGo vm prompt 0 vm.llmMocks with
    | mk vm2 r =>
      rw [hm] at hcap
      cases r <;> simpa using hcap
  | unknownReq =>
    show (vmTrace vm "Unknown gl_call request type").captured = vm.captured
    unfold vmTrace
    split <;> rfl

theorem runRequests_captured (encode : Nat → Bytes) :
    ∀ (reqs : List GlRequest) (vm : VmHost),
      (runRequests encode vm reqs).1.captured = vm.captured := by
  intro reqs
  induction reqs with
  | nil => intro vm; rfl
  | cons r rest ih =>
    intro vm
    have hcap := handleGlCall_captured encode vm r
    unfold runRequests
    cases hh : handleGlCall encode vm r with
    | mk vm2 res =>
      rw [hh] at hcap
      cases res with
      | ok _ => rw [ih vm2]; exact hcap
      | error e => exact hcap

/-- C3: no host-request path appends to the witness list
`vm._captured_validators` — in particular `_handle_run_nondet` runs the
leader closure and returns its result leaving the context untouched — so
any contract execution started after the consensus loop clears the list
leaves it empty, the vote computation for more than one validator
short-circuits to all agree, and the per-witness `_run_validators` branch is
never taken. -/
theorem run_nondet_never_captures (encode : Nat → Bytes) (reqs : List GlRequest)
    (vm : VmHost) :
    (∀ (vm2 : VmHost) (d : NondetData), (handleRunNondet encode vm2 d).1 = vm2) ∧
    (runRequests encode (clearCaptured vm) reqs).1.captured = [] ∧
    (∀ n, 1 < n →
      computeVotes (runRequests encode (clearCaptured vm) reqs).1.captured n =
        List.replicate n "agree" ∧
      validatorBranchTaken (runRequests encode (clearCaptured vm) reqs).1.captured n =
        false) := by
  have hempty : (runRequests encode (clearCaptured vm) reqs).1.captured = [] :=
    runRequests_captured encode reqs (clearCaptured vm)
  refine ⟨?_, hempty, ?_⟩
  · intro vm2 d
    unfold handleRunNondet
    cases d.dataLeader with
    | none => rfl
    | some f => cases hf : f () <;> simp [hf]
  · intro n hn
    rw [hempty]
    constructor
    · simp [computeVotes, Nat.not_le.mpr hn]
    · simp [validatorBranchTaken]

theorem run_nondet_never_captures_witness :
    (runRequests (fun _ => []) (clearCaptured
        { captured := [], returnValue := none, returned := false, traceEnabled := true,
          traces := [], webMocks := [], llmMocks := [], webMocksHit := [], llmMocksHit := [] })
        [GlRequest.runNondet ⟨some (fun _ => Except.ok 7)⟩]).1.captured = [] ∧
    computeVotes (runRequests (fun _ => []) (clearCaptured
        { captured := [], returnValue := none, returned := false, traceEnabled := true,
          traces := [], webMocks := [], llmMocks := [], webMocksHit := [], llmMocksHit := [] })
        [GlRequest.runNondet ⟨some (fun _ => Except.ok 7)⟩]).1.captured 5 =
      List.replicate 5 "agree" :=
  have h := run_nondet_never_captures (fun _ => [])
    [GlRequest.runNondet ⟨some (fun _ => Except.ok 7)⟩]
    { captured := [], returnValue := none, returned := false, traceEnabled := true,
      traces := [], webMocks := [], llmMocks := [], webMocksHit := [], llmMocksHit := [] }
  ⟨h.2.1, (h.2.2 5 (by decide)).1⟩

/-! ## C6: the post-message drain -/

/-- C6 counterexample: a top-level call whose method enqueues one
post-message and then raises.  Call depth returns to zero with the drain
flag false and the queue non-empty, yet nothing is drained: the queued
message is still in the queue, it was never executed, and the error
propagates — the drain block after the `try/finally` is simply skipped on an
exception. -/
theorem post_drain_skipped_on_error_cex :
    (callMethod raisingTable 2 idleCallState "0xaa" "go").2 = Except.error "boom" ∧
    (callMethod raisingTable 2 idleCallState "0xaa" "go").1.postQueue =
      [⟨"0xbb", "ping", [], "0xaa"⟩] ∧
    (callMethod raisingTable 2 idleCallState "0xaa" "go").1.callDepth = 0 ∧
    (callMethod raisingTable 2 idleCallState "0xaa" "go").1.draining = false ∧
    (callMethod raisingTable 2 idleCallState "0xaa" "go").1.execLog = [("0xaa", "go")] := by
  refine ⟨rfl, rfl, rfl, rfl, rfl⟩

/-- A call made with the drain flag already set executes its body and
returns without draining (this is what keeps the drained call from draining
further). -/
theorem callMethod_draining (methods : MethodTable) (fuel : Nat) (st3 : CallState)
    (a m : String) (dbody : BodyState → BodyState × Except String Nat)
    (db2 : BodyState) (dres : Except String Nat)
    (hdr3 : st3.draining = true)
    (hm2 : methods a m = some dbody)
    (hdbody : dbody (toBody st3) = (db2, dres)) :
    callMethod methods (fuel + 1) st3 a m = (afterOuterCall st3 a m db2, dres) := by
  show (match methods a m with
    | none => (st3, Except.error ("No contract deployed at " ++ a))
    | some body2 =>
      match body2 (toBody st3) with
      | (b2, Except.error e) => (afterOuterCall st3 a m b2, Except.error e)
      | (b2, Except.ok v) =>
        let st2 := afterOuterCall st3 a m b2
        if st2.callDepth = 0 ∧ st2.draining = false ∧ st2.postQueue ≠ [] then
          match st2.postQueue with
          | [] => (st2, Except.ok v)
          | pm :: _ =>
            match callMethod methods fuel (drainState st2) pm.address pm.method with
            | (st4, Except.ok _) => ({ st4 with draining := false }, Except.ok v)
            | (st4, Except.error e) =>
              ({ callTrace st4 ("PostMessage error: " ++ e) with draining := false },
                Except.ok v)
        else (st2, Except.ok v)) = (afterOuterCall st3 a m db2, dres)
  rw [hm2]
  show (match dbody (toBody st3) with
    | (b2, Except.error e) => (afterOuterCall st3 a m b2, Except.error e)
    | (b2, Except.ok v) =>
      let st2 := afterOuterCall st3 a m b2
      if st2.callDepth = 0 ∧ st2.draining = false ∧ st2.postQueue ≠ [] then
        match st2.postQueue with
        | [] => (st2, Except.ok v)
        | pm :: _ =>
          match callMethod methods fuel (drainState st2) pm.address pm.method with
          | (st4, Except.ok _) => ({ st4 with draining := false }, Except.ok v)
          | (st4, Except.error e) =>
            ({ callTrace st4 ("PostMessage error: " ++ e) with draining := false },
              Except.ok v)
      else (st2, Except.ok v)) = (afterOuterCall st3 a m db2, dres)
  rw [hdbody]
  cases dres with
  | error e => rfl
  | ok v =>
    show (if (afterOuterCall st3 a m db2).callDepth = 0 ∧
        (afterOuterCall st3 a m db2).draining = false ∧
        (afterOuterCall st3 a m db2).postQueue ≠ [] then _ else _) = _
    rw [if_neg]
    intro hcon
    have hfalse : st3.draining = false := hcon.2.1
    rw [hdr3] at hfalse
    cases hfalse

/-- The outer step of a successful top-level call with a non-empty queue:
the head is popped, the queue cleared, the drain flag set, the drained call
made, and its error (if any) traced and swallowed. -/
theorem callMethod_top_step (methods : MethodTable) (fuel : Nat) (st : CallState)
    (addr mname : String) (body : BodyState → BodyState × Except String Nat)
    (b2 : BodyState) (v : Nat) (pm : PostMsg) (rest : List PostMsg)
    (hd : st.callDepth = 0) (hdr : st.draining = false)
    (hm : methods addr mname = some body)
    (hbody : body (toBody st) = (b2, Except.ok v))
    (hq : b2.postQueue = pm :: rest) :
    callMethod methods (fuel + 2) st addr mname =
      (match callMethod methods (fuel + 1) (drainState (afterOuterCall st addr mname b2))
          pm.address pm.method with
       | (st4, Except.ok _) => ({ st4 with draining := false }, Except.ok v)
       | (st4, Except.error e) =>
         ({ callTrace st4 ("PostMessage error: " ++ e) with draining := false },
           Except.ok v)) := by
  have hq2 : (afterOuterCall st addr mname b2).postQueue = pm :: rest := hq
  show (match methods addr mname with
    | none => (st, Except.error ("No contract deployed at " ++ addr))
    | some body2 =>
      match body2 (toBody st) with
      | (b3, Except.error e) => (afterOuterCall st addr mname b3, Except.error e)
      | (b3, Except.ok v2) =>
        let st2 := afterOuterCall st addr mname b3
        if st2.callDepth = 0 ∧ st2.draining = false ∧ st2.postQueue ≠ [] then
          match st2.postQueue with
          | [] => (st2, Except.ok v2)
          | pm2 :: _ =>
            match callMethod methods (fuel + 1) (drainState st2) pm2.address pm2.method with
            | (st4, Except.ok _) => ({ st4 with draining := false }, Except.ok v2)
            | (st4, Except.error e) =>
              ({ callTrace st4 ("PostMessage error: " ++ e) with draining := false },
                Except.ok v2)
        else (st2, Except.ok v2)) = _
  rw [hm]
  show (match body (toBody st) with
    | (b3, Except.error e) => (afterOuterCall st addr mname b3, Except.error e)
    | (b3, Except.ok v2) =>
      let st2 := afterOuterCall st addr mname b3
      if st2.callDepth = 0 ∧ st2.draining = false ∧ st2.postQueue ≠ [] then
        match st2.postQueue with
        | [] => (st2, Except.ok v2)
        | pm2 :: _ =>
          match callMethod methods (fuel + 1) (drainState st2) pm2.address pm2.method with
          | (st4, Except.ok _) => ({ st4 with draining := false }, Except.ok v2)
          | (st4, Except.error e) =>
            ({ callTrace st4 ("PostMessage error: " ++ e) with draining := false },
              Except.ok v2)
      else (st2, Except.ok v2)) = _
  rw [hbody]
  show (if (afterOuterCall st addr mname b2).callDepth = 0 ∧
      (afterOuterCall st addr mname b2).draining = false ∧
      (afterOuterCall st addr mname b2).postQueue ≠ [] then _ else _) = _
  rw [if_pos ⟨hd, hdr, by rw [hq2]; simp⟩]
  show (match (afterOuterCall st addr mname b2).postQueue with
    | [] => (afterOuterCall st addr mname b2, Except.ok v)
    | pm2 :: _ =>
      match callMethod methods (fuel + 1) (drainState (afterOuterCall st addr mname b2))
          pm2.address pm2.method with
      | (st4, Except.ok _) => ({ st4 with draining := false }, Except.ok v)
      | (st4, Except.error e) =>
        ({ callTrace st4 ("PostMessage error: " ++ e) with draining := false },
          Except.ok v)) = _
  rw [hq2]

/-- C6 amended: on a top-level call (depth 0, drain flag clear) whose method
body returns normally and leaves a non-empty post-message queue, exactly one
message — the head — is drained and executed; the whole queue is discarded
at the moment of drain (only messages the drained call itself enqueues
remain); the drained call runs with the drain flag set and therefore never
drains further; an error raised by the drained call is recorded via the
trace facility and never propagated — the caller still receives the outer
result.  If instead the outer method raises, nothing is drained (the drain
block is only reached on normal return; see the counterexample). -/
theorem post_drain_exactly_head (methods : MethodTable) (fuel : Nat) (st : CallState)
    (addr mname : String) (body dbody : BodyState → BodyState × Except String Nat)
    (b2 db2 : BodyState) (v : Nat) (pm : PostMsg) (rest : List PostMsg)
    (dres : Except String Nat)
    (hd : st.callDepth = 0) (hdr : st.draining = false)
    (hm : methods addr mname = some body)
    (hbody : body (toBody st) = (b2, Except.ok v))
    (hq : b2.postQueue = pm :: rest)
    (hm2 : methods pm.address pm.method = some dbody)
    (hdbody : dbody ⟨b2.storages, [], b2.traces⟩ = (db2, dres)) :
    (callMethod methods (fuel + 2) st addr mname).2 = Except.ok v ∧
    (callMethod methods (fuel + 2) st addr mname).1.draining = false ∧
    (callMethod methods (fuel + 2) st addr mname).1.execLog =
      st.execLog ++ [(addr, mname), (pm.address, pm.method)] ∧
    (callMethod methods (fuel + 2) st addr mname).1.postQueue = db2.postQueue ∧
    (∀ e, dres = Except.error e →
      (callMethod methods (fuel + 2) st addr mname).1.traces =
        (if st.traceEnabled then db2.traces ++ ["PostMessage error: " ++ e]
         else db2.traces)) ∧
    (∀ v2, dres = Except.ok v2 →
      (callMethod methods (fuel + 2) st addr mname).1.traces = db2.traces) := by
  have hdbody2 : dbody (toBody (drainState (afterOuterCall st addr mname b2))) =
      (db2, dres) := hdbody
  have hinner := callMethod_draining methods fuel
    (drainState (afterOuterCall st addr mname b2)) pm.address pm.method dbody db2 dres
    rfl hm2 hdbody2
  have houter := callMethod_top_step methods fuel st addr mname body b2 v pm rest
    hd hdr hm hbody hq
  rw [hinner] at houter
  cases dres with
  | ok v2 =>
    rw [houter]
    refine ⟨rfl, rfl, ?_, rfl, ?_, ?_⟩
    · show (afterOuterCall (drainState (afterOuterCall st addr mname b2))
        pm.address pm.method db2).execLog = _
      show (st.execLog ++ [(addr, mname)]) ++ [(pm.address, pm.method)] = _
      simp
    · intro e he
      cases he
    · intro v3 _
      rfl
  | error e =>
    rw [houter]
    refine ⟨rfl, rfl, ?_, ?_, ?_, ?_⟩
    · show (callTrace (afterOuterCall (drainState (afterOuterCall st addr mname b2))
        pm.address pm.method db2) ("PostMessage error: " ++ e)).execLog = _
      unfold callTrace
      split
      · show (st.execLog ++ [(addr, mname)]) ++ [(pm.address, pm.method)] = _
        simp
      · show (st.execLog ++ [(addr, mname)]) ++ [(pm.address, pm.method)] = _
        simp
    · show (callTrace (afterOuterCall (drainState (afterOuterCall st addr mname b2))
        pm.address pm.method db2) ("PostMessage error: " ++ e)).postQueue = _
      unfold callTrace
      split <;> rfl
    · intro e2 he2
      cases he2
      show (callTrace (afterOuterCall (drainState (afterOuterCall st addr mname b2))
        pm.address pm.method db2) ("PostMessage error: " ++ e)).traces = _
      unfold callTrace
      by_cases hte : st.traceEnabled = true
      · have hte2 : (afterOuterCall (drainState (afterOuterCall st addr mname b2))
            pm.address pm.method db2).traceEnabled = true := hte
        rw [if_pos hte2, if_pos hte]
        rfl
      · have hte2 : ¬ ((afterOuterCall (drainState (afterOuterCall st addr mname b2))
            pm.address pm.method db2).traceEnabled = true) := hte
        rw [if_neg hte2, if_neg hte]
        rfl
    · intro v3 hv
      cases hv

theorem post_drain_exactly_head_witness :
    (callMethod drainTable 2 idleCallState "0xaa" "go").2 = Except.ok 1 ∧
    (callMethod drainTable 2 idleCallState "0xaa" "go").1.draining = false ∧
    (callMethod drainTable 2 idleCallState "0xaa" "go").1.execLog =
      idleCallState.execLog ++ [("0xaa", "go"), ("0xbb", "ping")] ∧
    (callMethod drainTable 2 idleCallState "0xaa" "go").1.postQueue = [] ∧
    (callMethod drainTable 2 idleCallState "0xaa" "go").1.traces =
      (if idleCallState.traceEnabled then [] ++ ["PostMessage error: ping failed"]
       else []) :=
  have h := post_drain_exactly_head drainTable 0 idleCallState "0xaa" "go"
    enqueueTwoBody pingFailsBody
    ⟨[], [⟨"0xbb", "ping", [], "0xaa"⟩, ⟨"0xcc", "pong", [], "0xaa"⟩], []⟩ ⟨[], [], []⟩ 1
    ⟨"0xbb", "ping", [], "0xaa"⟩ [⟨"0xcc", "pong", [], "0xaa"⟩] (Except.error "ping failed")
    rfl rfl rfl rfl rfl rfl rfl
  ⟨h.1, h.2.1, h.2.2.1, h.2.2.2.1, h.2.2.2.2.1 "ping failed" rfl⟩

/-! ## C7 and C8: the cross-contract hook -/

/-- C7: for every cross-contract call and every cross-contract deploy
dispatched through the engine's hook, on both normal return and error the
runtime's current storage partition (`vm._storage`) and current contract
address (`vm._contract_address`) equal the parent values they held at entry
to the hook. -/
theorem cross_contract_frame_restored (st : XState) (addr : String)
    (methodRun : XState → XState × Except String Nat) (encode : Nat → Bytes)
    (codeHash : String) (construct : XState → XState × Except String Nat)
    (okBytes : Bytes) :
    ((handleCallInContract st addr methodRun encode).1.vmStorageRef = st.vmStorageRef ∧
     (handleCallInContract st addr methodRun encode).1.vmContractAddress =
       st.vmContractAddress) ∧
    ((handleDeployInContract st codeHash construct okBytes).1.vmStorageRef =
       st.vmStorageRef ∧
     (handleDeployInContract st codeHash construct okBytes).1.vmContractAddress =
       st.vmContractAddress) := by
  constructor
  · simp only [handleCallInContract]
    cases lookupA st.instances (pyLower addr) with
    | none => exact ⟨rfl, rfl⟩
    | some i =>
      cases methodRun (callTargetState st (pyLower addr)) with
      | mk st3 r => cases r <;> exact ⟨rfl, rfl⟩
  · simp only [handleDeployInContract]
    cases construct (deployChildState st) with
    | mk st4 r => cases r <;> exact ⟨rfl, rfl⟩

/-- C8: cross-contract call result encoding.  An unknown target returns
`0x01 ++ utf8("Contract not found at <addr>")` with the state untouched; a
successful method invocation returns `0x00 ++ encode(result)`; a method
exception returns `0x01 ++ utf8(message)`.  The handler's return type is a
plain byte payload — a failure is never propagated as an exception to the
outer contract. -/
theorem cross_contract_call_encoding (st : XState) (addr : String)
    (methodRun : XState → XState × Except String Nat) (encode : Nat → Bytes) :
    (lookupA st.instances (pyLower addr) = none →
      handleCallInContract st addr methodRun encode =
        (st, 1 :: strBytes ("Contract not found at " ++ pyLower addr))) ∧
    (∀ st3 v, methodRun (callTargetState st (pyLower addr)) = (st3, Except.ok v) →
      ∀ i, lookupA st.instances (pyLower addr) = some i →
      (handleCallInContract st addr methodRun encode).2 = 0 :: encode v) ∧
    (∀ st3 e, methodRun (callTargetState st (pyLower addr)) = (st3, Except.error e) →
      ∀ i, lookupA st.instances (pyLower addr) = some i →
      (handleCallInContract st addr methodRun encode).2 = 1 :: strBytes e) := by
  refine ⟨?_, ?_, ?_⟩
  · intro h
    simp only [handleCallInContract]
    rw [h]
  · intro st3 v hrun i hi
    simp only [handleCallInContract]
    rw [hi, hrun]
  · intro st3 e hrun i hi
    simp only [handleCallInContract]
    rw [hi, hrun]

theorem cross_contract_call_encoding_witness :
    handleCallInContract xPlain "0xBBBB" (fun s => (s, Except.ok 3)) (fun v => [v]) =
      (xPlain, 1 :: strBytes ("Contract not found at " ++ pyLower "0xBBBB")) ∧
    (handleCallInContract xPlain "0xAAAA" (fun s => (s, Except.ok 3)) (fun v => [v])).2 =
      0 :: [3] ∧
    (handleCallInContract xPlain "0xAAAA" (fun s => (s, Except.error "nope"))
      (fun v => [v])).2 = 1 :: strBytes "nope" :=
  ⟨(cross_contract_call_encoding xPlain "0xBBBB" (fun s => (s, Except.ok 3))
      (fun v => [v])).1 (by decide),
   (cross_contract_call_encoding xPlain "0xAAAA" (fun s => (s, Except.ok 3))
      (fun v => [v])).2.1 (callTargetState xPlain (pyLower "0xAAAA")) 3 rfl 1 (by decide),
   (cross_contract_call_encoding xPlain "0xAAAA" (fun s => (s, Except.error "nope"))
      (fun v => [v])).2.2 (callTargetState xPlain (pyLower "0xAAAA")) "nope" rfl 1
      (by decide)⟩

/-! ## C10: block advance and sequential-id allocation -/

theorem restoreStorages_counters (s s2 : SimState) (sid : Nat) (snapArg : StorSnap)
    (hsnap : lookupA s2.snapshots sid = some (mkSnap s)) :
    (restoreStorages s2 snapArg sid).blockNumber = s.blockNumber ∧
    (restoreStorages s2 snapArg sid).nextGlTxId = s.nextGlTxId ∧
    (restoreStorages s2 snapArg sid).transactions = s.transactions := by
  unfold restoreStorages restoreSnapshot
  rw [hsnap]
  exact ⟨rfl, rfl, rfl⟩

/-- Consensus never changes the block counter, the sequential-id counter or
the transaction map: the execute closures do not touch them and every
rollback restores them. -/
theorem consensusGo_counters (execute : SimState → ExecOut) (n maxR : Nat)
    (hc : ExecCountersStable execute) :
    ∀ (r idx : Nat) (s : SimState) (last : Attempt),
      (consensusGo execute n maxR r idx s last).1.blockNumber = s.blockNumber ∧
      (consensusGo execute n maxR r idx s last).1.nextGlTxId = s.nextGlTxId ∧
      (consensusGo execute n maxR r idx s last).1.transactions = s.transactions := by
  intro r
  induction r with
  | zero => intro idx s last; exact ⟨rfl, rfl, rfl⟩
  | succ r ih =>
    intro idx s last
    obtain ⟨hb, hg, ht, hsn, _⟩ := hc (createSnapshot s).1
    have hgo : consensusGo execute n maxR (r + 1) idx s last =
        if n / 2 + 1 ≤ (computeVotes (execute (createSnapshot s).1).captured n).count "agree" then
          ((execute (createSnapshot s).1).st,
            { status := TxStatus.FINALIZED,
              result := match (execute (createSnapshot s).1).res with
                | Except.ok p => some p.1 | Except.error _ => none,
              error := match (execute (createSnapshot s).1).res with
                | Except.ok _ => none | Except.error e => some e,
              resultBytes := match (execute (createSnapshot s).1).res with
                | Except.ok p => p.2 | Except.error _ => [],
              votes := computeVotes (execute (createSnapshot s).1).captured n,
              rotation := idx })
        else
          consensusGo execute n maxR r (idx + 1)
            (restoreStorages (execute (createSnapshot s).1).st
              (snapshotStorages (createSnapshot s).1) (createSnapshot s).2)
            { result := match (execute (createSnapshot s).1).res with
                | Except.ok p => some p.1 | Except.error _ => none,
              error := match (execute (createSnapshot s).1).res with
                | Except.ok _ => none | Except.error e => some e,
              resultBytes := match (execute (createSnapshot s).1).res with
                | Except.ok p => p.2 | Except.error _ => [],
              votes := computeVotes (execute (createSnapshot s).1).captured n } := rfl
    rw [hgo]
    by_cases hmaj :
        n / 2 + 1 ≤ (computeVotes (execute (createSnapshot s).1).captured n).count "agree"
    · rw [if_pos hmaj]
      exact ⟨hb, hg, ht⟩
    · rw [if_neg hmaj]
      have hlook : lookupA (execute (createSnapshot s).1).st.snapshots (createSnapshot s).2 =
          some (mkSnap s) := by
        rw [hsn]
        exact lookupA_insert_self s.snapshots (s.snapshotCounter + 1) (mkSnap s)
      obtain ⟨rb, rg, rt⟩ := restoreStorages_counters s (execute (createSnapshot s).1).st
        (createSnapshot s).2 (snapshotStorages (createSnapshot s).1) hlook
      obtain ⟨ib, ig, it⟩ := ih (idx + 1) (restoreStorages (execute (createSnapshot s).1).st
          (snapshotStorages (createSnapshot s).1) (createSnapshot s).2)
          { result := match (execute (createSnapshot s).1).res with
              | Except.ok p => some p.1 | Except.error _ => none,
            error := match (execute (createSnapshot s).1).res with
              | Except.ok _ => none | Except.error e => some e,
            resultBytes := match (execute (createSnapshot s).1).res with
              | Except.ok p => p.2 | Except.error _ => [],
            votes := computeVotes (execute (createSnapshot s).1).captured n }
      exact ⟨ib.trans rb, ig.trans rg, it.trans rt⟩

/-- C10 amended: after any terminated top-level submission the block
counter increases by exactly 1; for `eth_sendRawTransaction` submissions the
sequential id allocated (recorded on the transaction) equals the previous
maximum plus 1, and the transaction ends in a terminal status; `sim_deploy`
and `sim_call` advance the block by 1 on both the success and the failure
path, but allocate NO sequential identifier — the sequential-id counter is
unchanged and the recorded transaction keeps `gl_tx_id = 0`. -/
theorem block_advance_and_sequential_id :
    (∀ (execute : SimState → ExecOut) (n maxR : Nat) (p : GlPayload)
       (ethH intH : String) (s : SimState),
       ExecWellBehaved execute → ExecCountersStable execute →
       maxGlId s.transactions + 1 = s.nextGlTxId →
       (rpcEthSendRawTransaction execute n maxR p ethH intH s).1.blockNumber =
         s.blockNumber + 1 ∧
       ((rpcEthSendRawTransaction execute n maxR p ethH intH s).2 = Except.ok ethH →
         ∃ t, lookupA
             (rpcEthSendRawTransaction execute n maxR p ethH intH s).1.transactions intH =
             some t ∧
           t.glTxId = maxGlId s.transactions + 1 ∧
           (t.status = TxStatus.FINALIZED ∨ t.status = TxStatus.UNDETERMINED))) ∧
    (∀ (deployFn : SimState → SimState × Except String String) (txHash deployer : String)
       (s : SimState), SimpleFnStable deployFn →
       (rpcSimDeploy deployFn txHash deployer s).1.blockNumber = s.blockNumber + 1 ∧
       (rpcSimDeploy deployFn txHash deployer s).1.nextGlTxId = s.nextGlTxId ∧
       ∃ t, lookupA (rpcSimDeploy deployFn txHash deployer s).1.transactions txHash =
           some t ∧ t.glTxId = 0) ∧
    (∀ (callFn : SimState → SimState × Except String Nat)
       (txHash caller toAddr : String) (s : SimState), SimpleFnStable callFn →
       (rpcSimCall callFn txHash caller toAddr s).1.blockNumber = s.blockNumber + 1 ∧
       (rpcSimCall callFn txHash caller toAddr s).1.nextGlTxId = s.nextGlTxId ∧
       ∃ t, lookupA (rpcSimCall callFn txHash caller toAddr s).1.transactions txHash =
           some t ∧ t.glTxId = 0) := by
  refine ⟨?_, ?_, ?_⟩
  · intro execute n maxR p ethH intH s hw hc hdensity
    simp only [rpcEthSendRawTransaction]
    by_cases hbr : p.txType = "deploy" ∨ p.callData.isSome = true
    · rw [if_pos hbr]
      obtain ⟨cb, cg, ct⟩ := consensusGo_counters execute n
        (if maxR < 1 then 1 else maxR) hc (if maxR < 1 then 1 else maxR) 0
        (ethPreState p ethH intH s)
        { result := none, error := none, resultBytes := [], votes := [] }
      constructor
      · show (runConsensus execute n maxR (ethPreState p ethH intH s)).1.blockNumber + 1 =
          s.blockNumber + 1
        have : (runConsensus execute n maxR (ethPreState p ethH intH s)).1.blockNumber =
            s.blockNumber := cb
        rw [this]
      · intro _
        refine ⟨_, lookupA_insert_self _ _ _, ?_, ?_⟩
        · show s.nextGlTxId = maxGlId s.transactions + 1
          exact hdensity.symm
        · show (runConsensus execute n maxR (ethPreState p ethH intH s)).2.status =
            TxStatus.FINALIZED ∨
            (runConsensus execute n maxR (ethPreState p ethH intH s)).2.status =
            TxStatus.UNDETERMINED
          rcases consensusGo_spec execute n (if maxR < 1 then 1 else maxR) hw
              (if maxR < 1 then 1 else maxR) 0 (ethPreState p ethH intH s)
              { result := none, error := none, resultBytes := [], votes := [] } with
            ⟨hstat, _⟩ | ⟨hstat, _⟩
        -- runConsensus unfolds to the consensusGo application by definition
          · exact Or.inl hstat
          · exact Or.inr hstat
    · rw [if_neg hbr]
      refine ⟨rfl, ?_⟩
      intro h
      simp at h
  · intro deployFn txHash deployer s hs
    obtain ⟨hb, hg, _⟩ := hs (withTxInserted s txHash (rpcSimDeployTx txHash deployer s))
    simp only [rpcSimDeploy]
    cases hfn : deployFn (withTxInserted s txHash (rpcSimDeployTx txHash deployer s)) with
    | mk s2 r =>
      rw [hfn] at hb hg
      cases r with
      | ok addr =>
        exact ⟨by show s2.blockNumber + 1 = s.blockNumber + 1; rw [hb]; rfl,
          by show s2.nextGlTxId = s.nextGlTxId; exact hg,
          ⟨_, lookupA_insert_self _ _ _, rfl⟩⟩
      | error e =>
        exact ⟨by show s2.blockNumber + 1 = s.blockNumber + 1; rw [hb]; rfl,
          by show s2.nextGlTxId = s.nextGlTxId; exact hg,
          ⟨_, lookupA_insert_self _ _ _, rfl⟩⟩
  · intro callFn txHash caller toAddr s hs
    obtain ⟨hb, hg, _⟩ := hs (withTxInserted s txHash (rpcSimCallTx txHash caller toAddr s))
    simp only [rpcSimCall]
    cases hfn : callFn (withTxInserted s txHash (rpcSimCallTx txHash caller toAddr s)) with
    | mk s2 r =>
      rw [hfn] at hb hg
      cases r with
      | ok v =>
        exact ⟨by show s2.blockNumber + 1 = s.blockNumber + 1; rw [hb]; rfl,
          by show s2.nextGlTxId = s.nextGlTxId; exact hg,
          ⟨_, lookupA_insert_self _ _ _, rfl⟩⟩
      | error e =>
        exact ⟨by show s2.blockNumber + 1 = s.blockNumber + 1; rw [hb]; rfl,
          by show s2.nextGlTxId = s.nextGlTxId; exact hg,
          ⟨_, lookupA_insert_self _ _ _, rfl⟩⟩

/-- C10 counterexample: a `sim_deploy` submission that terminates (FINALIZED)
yet carries sequential id 0 — no sequential identifier was allocated (the
counter is unchanged), while `previous_max + 1` is 1.  The claim's
"sequential id allocated for the submission equals previous max + 1" fails
for `sim_deploy` (and `sim_call`). -/
theorem sim_deploy_no_sequential_id_cex :
    ((lookupA (rpcSimDeploy deployOkConst "h1" "0xdd" emptyState).1.transactions "h1").map
        Tx.status) = some TxStatus.FINALIZED ∧
    ((lookupA (rpcSimDeploy deployOkConst "h1" "0xdd" emptyState).1.transactions "h1").map
        Tx.glTxId) = some 0 ∧
    (rpcSimDeploy deployOkConst "h1" "0xdd" emptyState).1.nextGlTxId =
      emptyState.nextGlTxId ∧
    maxGlId emptyState.transactions + 1 = 1 := by
  refine ⟨by decide, by decide, by decide, by decide⟩

theorem block_advance_and_sequential_id_witness :
    (rpcEthSendRawTransaction execRaises 1 1 ⟨"deploy", "0xaa", addressZero, 1, none⟩
      "0xeth" "0xint" emptyState).1.blockNumber = emptyState.blockNumber + 1 ∧
    (rpcSimDeploy deployOkConst "h2" "0xdd" emptyState).1.blockNumber =
      emptyState.blockNumber + 1 ∧
    (rpcSimDeploy deployOkConst "h2" "0xdd" emptyState).1.nextGlTxId =
      emptyState.nextGlTxId ∧
    (rpcSimCall callOkConst "h3" "0xdd" "0xee" emptyState).1.blockNumber =
      emptyState.blockNumber + 1 :=
  have h := block_advance_and_sequential_id
  ⟨(h.1 execRaises 1 1 ⟨"deploy", "0xaa", addressZero, 1, none⟩ "0xeth" "0xint" emptyState
      (fun s => ⟨mapExtends_refl s.instances, mapExtends_refl s.contracts, rfl, rfl⟩)
      (fun _ => ⟨rfl, rfl, rfl, rfl, rfl⟩) (by decide)).1,
   (h.2.1 deployOkConst "h2" "0xdd" emptyState (fun _ => ⟨rfl, rfl, rfl⟩)).1,
   (h.2.1 deployOkConst "h2" "0xdd" emptyState (fun _ => ⟨rfl, rfl, rfl⟩)).2.1,
   (h.2.2 callOkConst "h3" "0xdd" "0xee" emptyState (fun _ => ⟨rfl, rfl, rfl⟩)).1⟩

end GLSim
